import Mathlib

/-!
Verification of yaserver (a minimal static-file HTTP request handler) against
its natural-language specification.

The repository has two implementations of the same handler: the TypeScript
source `src/index.ts` and the compiled artifact `out/index.js`.  Both are
embedded below (they differ only in the file writer's header construction:
the MIME lookup table and an extra `Content-Encoding` header in the
TypeScript version).  The handler is asynchronous but each request is a
single sequential flow with no shared mutable state, so it embeds as a pure
function from (environment, configuration, filesystem state, request, clock)
to the sequence of externally visible actions it performs: filesystem probes
and response writes (`writeHead` / `end`).

Node's `path.posix` functions (`normalize`, `join`, `relative`, `extname`)
and the legacy `url.parse(...).pathname` extraction are modelled on
character lists, following Node's documented semantics.
-/

namespace YaServer

/-- Bytes of a Node `Buffer`, one natural number (0..255) per byte. -/
abbrev Bytes := List Nat

/-- One directory entry as returned by `fs.readdir` with `withFileTypes: true`:
a name and whether `entry.isDirectory()` holds. -/
structure DirEntry where
  name : String
  isDir : Bool
deriving DecidableEq, Repr

/-- Filesystem state seen through the three total probe wrappers of the source
(`fsSafeRead`, `fsSafeStat`, `fsSafeReadDir`): every I/O error is collapsed to
`none`.  `statIsDir p = some b` means `fs.stat` succeeded and
`stats.isDirectory()` returned `b`. -/
structure FsState where
  readFile : String → Option Bytes
  statIsDir : String → Option Bool
  readDir : String → Option (List DirEntry)

/-- Server configuration after `createServer` normalized the options
(index.ts lines 18-20): `rootDir` is `path.normalize` of the option,
`useETag` defaults to true, `expires` (milliseconds) defaults to 5000.
JavaScript's `if (expires)` truthiness test is `expires ≠ 0` here. -/
structure Config where
  rootDir : String
  useETag : Bool
  expires : Nat

/-- One incoming request: the method, the raw request URL (`req.url`; the
falsy/undefined case of `!req.url` is modelled as the empty string) and the
`if-none-match` request header (`none` when absent). -/
structure Request where
  method : String
  url : String
  ifNoneMatch : Option String

/-- External collaborators the handler calls but whose internals none of the
claims depend on: `crypto.createHash('md5')...digest('hex')` as an arbitrary
digest function, `Date.toUTCString` on an epoch-milliseconds instant, and
`String.prototype.localeCompare`.  All theorems below hold for every choice
of these functions. -/
structure Env where
  md5Hex : Bytes → String
  toUTCString : Nat → String
  localeCompare : String → String → Int

/-- Body passed to `res.end`: nothing, a JavaScript string, or a `Buffer`. -/
inductive BodyV
  | empty
  | str (s : String)
  | bytes (b : Bytes)
deriving DecidableEq, Repr

/-- Externally visible actions of one request, in order: the filesystem probes
(`fs.readFile`, `fs.stat`, `fs.readdir` through the safe wrappers) and the
response calls `res.writeHead(status, statusText, headers)` and
`res.end(body)`.  Headers are an insertion-ordered association list, exactly
the key order of the JavaScript headers object literal. -/
inductive Ev
  | probeRead (p : String)
  | probeStat (p : String)
  | probeReadDir (p : String)
  | resWriteHead (status : Nat) (statusText : String) (headers : List (String × String))
  | resEnd (body : BodyV)
deriving DecidableEq, Repr

/-! ## Models of the Node `path.posix` library functions -/

/-- Split a character list at every occurrence of the separator `c`
(the pieces between separators, in order; `n` separators give `n+1` pieces). -/
def splitOnChar (c : Char) : List Char → List (List Char)
  | [] => [[]]
  | x :: xs =>
    if x = c then [] :: splitOnChar c xs
    else
      match splitOnChar c xs with
      | [] => [[x]]
      | s :: ss => (x :: s) :: ss

/-- Path segments of a string: split at `'/'`. -/
def segsOf (s : String) : List String :=
  (splitOnChar '/' s.toList).map (fun l => String.mk l)

/-- Join segments with `'/'` between them. -/
def joinSegs : List String → String
  | [] => ""
  | [s] => s
  | s :: rest => s ++ "/" ++ joinSegs rest

/-- One step of Node's `normalizeString` segment loop, on an accumulator held
in reverse order (head = most recent kept segment): empty and `"."` segments
are dropped; `".."` pops the last kept segment, or (only when `allowAboveRoot`,
i.e. for relative paths) is kept when there is nothing left to pop. -/
def normStep (allowAboveRoot : Bool) (acc : List String) (seg : String) : List String :=
  if seg = "" ∨ seg = "." then acc
  else if seg = ".." then
    match acc with
    | [] => if allowAboveRoot then [".."] else []
    | a :: rest => if a = ".." then (if allowAboveRoot then ".." :: acc else acc) else rest
  else seg :: acc

/-- Normalized segments of a path string. -/
def normSegs (allowAboveRoot : Bool) (s : String) : List String :=
  ((segsOf s).foldl (normStep allowAboveRoot) []).reverse

/-- Whether the string starts with `'/'`. -/
def isAbs (s : String) : Bool := s.toList.head? = some '/'

/-- Whether the string ends with `'/'`. -/
def endsSlash (s : String) : Bool := s.toList.getLast? = some '/'

/-- Model of Node `path.posix.normalize`: resolves `"."` and `".."` segments and
collapses repeated separators; an absolute path never keeps `".."` segments; a
trailing separator is preserved; the empty path normalizes to `"."`. -/
def pathNormalize (p : String) : String :=
  if p = "" then "."
  else
    let body := joinSegs (normSegs (!isAbs p) p)
    if body = "" then
      if isAbs p then "/" else if endsSlash p then "./" else "."
    else
      let body2 := if endsSlash p then body ++ "/" else body
      if isAbs p then "/" ++ body2 else body2

/-- Model of Node `path.posix.join` for two arguments: concatenate the
non-empty arguments with a separator and normalize; with no non-empty
argument the result is `"."`. -/
def pathJoin (a b : String) : String :=
  if a = "" ∧ b = "" then "."
  else if a = "" then pathNormalize b
  else if b = "" then pathNormalize a
  else pathNormalize (a ++ "/" ++ b)

/-- Model of Node `path.posix.resolve` restricted to one absolute argument
(the only use below): `"."`/`".."` resolved, no trailing separator. -/
def pathResolveAbs (p : String) : String :=
  "/" ++ joinSegs (normSegs false p)

/-- Drop the common leading segments of two segment lists. -/
def dropCommon : List String → List String → List String × List String
  | a :: as, b :: bs => if a = b then dropCommon as bs else (a :: as, b :: bs)
  | as, bs => (as, bs)

/-- Model of Node `path.posix.relative` for absolute arguments: resolve both,
drop the common leading segments, then one `".."` per remaining segment of
`f` followed by the remaining segments of `t`. -/
def pathRelative (f t : String) : String :=
  let fr := pathResolveAbs f
  let tr := pathResolveAbs t
  if fr = tr then ""
  else
    let fsegs := if fr = "/" then [] else segsOf (String.mk (fr.toList.drop 1))
    let tsegs := if tr = "/" then [] else segsOf (String.mk (tr.toList.drop 1))
    let p := dropCommon fsegs tsegs
    joinSegs (List.replicate p.1.length ".." ++ p.2)

/-- Model of Node `path.posix.extname`: the extension of the basename (the part
after the last `'/'`, ignoring trailing separators), from its last `'.'`;
empty when the basename has no dot, is `".."`, or has its only dot leading
(dotfiles such as `.bashrc`). -/
def extname (p : String) : String :=
  let noTrail := (p.toList.reverse.dropWhile (fun c => c = '/')).reverse
  let b := ((splitOnChar '/' noTrail).map (fun l => String.mk l)).getLastD ""
  if b = ".." then ""
  else
    match splitOnChar '.' b.toList with
    | [] => ""
    | [_] => ""
    | first :: rest =>
      if first = [] ∧ rest.length = 1 then ""
      else "." ++ String.mk (rest.getLastD [])

/-! ## Model of the legacy `url.parse(u).pathname` extraction -/

/-- Characters the legacy URL parser trims from the ends of its input (code
below 33, no-break space, zero-width no-break space). -/
def trimWs (c : Char) : Bool :=
  c.toNat < 33 || c.toNat = 160 || c.toNat = 65279

/-- The JavaScript regular-expression whitespace class, as the legacy parser's
patterns use it. -/
def jsWs (c : Char) : Bool :=
  c.toNat = 9 || c.toNat = 10 || c.toNat = 11 || c.toNat = 12 || c.toNat = 13 ||
  c.toNat = 32 || c.toNat = 160 || c.toNat = 5760 ||
  (8192 ≤ c.toNat && c.toNat ≤ 8202) || c.toNat = 8232 || c.toNat = 8233 ||
  c.toNat = 8239 || c.toNat = 8287 || c.toNat = 12288 || c.toNat = 65279

/-- Leading/trailing trimming of the legacy parser's first scan. -/
def legacyTrim (l : List Char) : List Char :=
  ((l.dropWhile trimWs).reverse.dropWhile trimWs).reverse

/-- Backslash-to-forward-slash conversion of the legacy parser's first scan,
applied only before the first `'#'` or `'?'`. -/
def convertBS : List Char → List Char
  | [] => []
  | c :: rest =>
    if c = '#' ∨ c = '?' then c :: rest
    else (if c = '\\' then '/' else c) :: convertBS rest

/-- The legacy parser's `autoEscapeStr` character table: tab, line feed,
carriage return, space, double quote, apostrophe, angle brackets, backslash,
caret, backtick, braces and vertical bar are percent-escaped; every other
character is kept as it is. -/
def autoEscape (c : Char) : List Char :=
  if c = '\t' then ['%', '0', '9']
  else if c = '\n' then ['%', '0', 'A']
  else if c = '\r' then ['%', '0', 'D']
  else if c = ' ' then ['%', '2', '0']
  else if c = '\"' then ['%', '2', '2']
  else if c = '\'' then ['%', '2', '7']
  else if c = '<' then ['%', '3', 'C']
  else if c = '>' then ['%', '3', 'E']
  else if c = '\\' then ['%', '5', 'C']
  else if c = '^' then ['%', '5', 'E']
  else if c = '`' then ['%', '6', '0']
  else if c = '{' then ['%', '7', 'B']
  else if c = '|' then ['%', '7', 'C']
  else if c = '}' then ['%', '7', 'D']
  else [c]

/-- The leading-slash shape of the legacy parser's simple-path fast pattern:
one `'/'`, optionally a second, not followed by a third. -/
def leadingSlashOk : List Char → Bool
  | '/' :: '/' :: '/' :: _ => false
  | '/' :: _ => true
  | _ => false

/-- The legacy parser's anchored simple-path fast pattern: the leading-slash
shape with no regular-expression whitespace anywhere in the string (the first
`'?'`, if any, starts the query; there is no constraint past it except
no whitespace). -/
def simplePathMatch (t : List Char) : Bool :=
  leadingSlashOk t && t.all (fun c => !jsWs c)

/-- Model of Node legacy `url.parse(u).pathname` for request-target strings
without a scheme or authority prefix (origin-form and asterisk-form targets;
the parser's protocol and host-extraction stages never fire for these and are
not modelled).  Following the parser: the ends are trimmed, backslashes
before the query/fragment are converted to `'/'`, and then either the
simple-path fast path applies — for inputs starting with `'/'` and free of
`'#'`, `'@'` and whitespace the pathname is the raw text before the query,
with no decoding and no escaping — or the slow path percent-escapes the
`autoEscape` characters and takes the text before the first `'#'` or `'?'`.
Percent-encoded sequences are never decoded.  The result is `none` when the
path component is empty (`url.parse` then yields `pathname: null`, and
`!pathname` is truthy). -/
def urlPathname (u : String) : Option String :=
  let t := legacyTrim u.toList
  let rest := convertBS t
  let hasHash := t.any (fun c => c = '#')
  let hasAt := (t.takeWhile (fun c => ¬(c = '#' ∨ c = '?'))).any (fun c => c = '@')
  if hasHash = false ∧ hasAt = false ∧ simplePathMatch rest = true then
    some (String.mk (rest.takeWhile (fun c => c ≠ '?')))
  else
    let esc := (rest.map autoEscape).join
    let path := esc.takeWhile (fun c => ¬(c = '#' ∨ c = '?'))
    if path = [] then none else some (String.mk path)

/-- Writer `notFound` (index.ts lines 27-30): 404 with no headers and the body
`"Not found"`, suffixed with ` - ` and the diagnostic reason code when one is
given (`extra` truthy). -/
def notFound (extra : String) : List Ev :=
  [Ev.resWriteHead 404 "Not found" [],
   Ev.resEnd (BodyV.str ("Not found" ++ (if extra = "" then "" else " - " ++ extra)))]

/-- Writer `redirect` (index.ts lines 32-37): 302 with the `Location` header and
a short echo of the location as body. -/
def redirect (location : String) : List Ev :=
  [Ev.resWriteHead 302 "Found" [("Location", location)],
   Ev.resEnd (BodyV.str ("Location: " ++ location))]

/-- Extension to `Content-Type` lookup of the TypeScript source's `serveFile`
(index.ts lines 44-55); `none` for `.map` and for the default case (which only
logs a warning and sets no content type). -/
def mimeTs (en : String) : Option String :=
  if en = ".html" then some "text/html"
  else if en = ".htm" then some "text/html"
  else if en = ".js" then some "text/javascript"
  else if en = ".css" then some "text/css"
  else if en = ".ttf" then some "font/ttf"
  else if en = ".svg" then some "image/svg+xml"
  else if en = ".wasm" then some "application/wasm"
  else none

/-- Extension to `Content-Type` lookup of the compiled artifact's `serveFile`
(out/index.js lines 42-76); `none` for `.map` and the warning-only default. -/
def mimeJs (en : String) : Option String :=
  if en = ".css" then some "text/css; charset=utf-8"
  else if en = ".htm" then some "text/html; charset=utf-8"
  else if en = ".html" then some "text/html; charset=utf-8"
  else if en = ".js" then some "text/javascript; charset=utf-8"
  else if en = ".json" then some "application/json; charset=utf-8"
  else if en = ".png" then some "image/png"
  else if en = ".svg" then some "image/svg+xml"
  else if en = ".ttf" then some "font/ttf"
  else if en = ".txt" then some "text/plain; charset=utf-8"
  else if en = ".wasm" then some "application/wasm"
  else none

/-- Header accumulation shared by the two `serveFile` writers (index.ts lines
39-59 and out/index.js lines 41-79, identical except for the data passed in):
`hdr0` is the initial headers object (the TypeScript source starts it with
`Content-Encoding: utf8`, the compiled artifact with an empty object) and
`mime` the version's lookup table.  Headers keep the insertion order of the
JavaScript code: initial entries, `Content-Type` (on a table hit), `Expires`
(when the expires option is truthy).  `ETag` (when `useETag`) and
`Content-Length` (only on the 200 path, a decimal string for the numeric
`content.byteLength`) are appended by `serveFileCore`.  When `useETag` holds
and the request's `if-none-match` header strictly equals the digest, the
response is 304 with the headers accumulated so far and `res.end()` with no
body; otherwise 200 with the content bytes. -/
def fileHeadersBase (mime : String → Option String) (hdr0 : List (String × String))
    (E : Env) (cfg : Config) (now : Nat) (en : String) : List (String × String) :=
  let h1 := match mime en with
    | some ct => hdr0 ++ [("Content-Type", ct)]
    | none => hdr0
  if cfg.expires ≠ 0 then h1 ++ [("Expires", E.toUTCString (now + cfg.expires))] else h1

/-- Continuation of the `serveFile` writers after the headers object holds the
initial entries, `Content-Type` and `Expires` (see `fileHeadersBase`): the
ETag conditional and the final 304 or 200 response. -/
def serveFileCore (mime : String → Option String) (hdr0 : List (String × String))
    (E : Env) (cfg : Config) (req : Request) (now : Nat) (en : String) (content : Bytes) :
    List Ev :=
  let h2 := fileHeadersBase mime hdr0 E cfg now en
  if cfg.useETag then
    let tag := E.md5Hex content
    let h3 := h2 ++ [("ETag", tag)]
    if req.ifNoneMatch = some tag then
      [Ev.resWriteHead 304 "Not modified" h3, Ev.resEnd BodyV.empty]
    else
      [Ev.resWriteHead 200 "OK" (h3 ++ [("Content-Length", toString content.length)]),
       Ev.resEnd (BodyV.bytes content)]
  else
    [Ev.resWriteHead 200 "OK" (h2 ++ [("Content-Length", toString content.length)]),
     Ev.resEnd (BodyV.bytes content)]

/-- File writer of the TypeScript source (index.ts lines 39-74). -/
def serveFileTs (E : Env) (cfg : Config) (req : Request) (now : Nat) (en : String)
    (content : Bytes) : List Ev :=
  serveFileCore mimeTs [("Content-Encoding", "utf8")] E cfg req now en content

/-- File writer of the compiled artifact (out/index.js lines 39-93). -/
def serveFileJs (E : Env) (cfg : Config) (req : Request) (now : Nat) (en : String)
    (content : Bytes) : List Ev :=
  serveFileCore mimeJs [] E cfg req now en content

/-- JavaScript comparator of `entries.sort` in `serveDir` (index.ts lines
78-85): directories rank 0, files rank 1, ties broken by `localeCompare` of
the names; expressed as the Boolean "sorts no later than" relation fed to a
stable merge sort (ECMAScript `Array.prototype.sort` is stable). -/
def entLe (E : Env) (a b : DirEntry) : Bool :=
  let aD : Nat := if a.isDir then 0 else 1
  let bD : Nat := if b.isDir then 0 else 1
  if aD = bD then E.localeCompare a.name b.name ≤ 0 else aD ≤ bD

/-- Listing template text before the first `${relativePath}` hole (index.ts
lines 86-112; literal braces written with \x7b and \x7d escapes). -/
def listingPartA : String := "\n<!DOCTYPE html>\n<html>\n\t<head>\n\t\t<title>Listing of "

/-- Listing template text between the `${relativePath}` holes. -/
def listingPartB : String := "</title>\n\t\t<style>\n.icon \x7b\n\tdisplay: inline-block;\n\twidth: 1em;\n\theight: 1em;\n\tmargin-right: 5px;\n\tbackground-repeat: no-repeat;\n\x7d\n.file-icon \x7b background-image: url(\"data:image/svg+xml,%3C%3Fxml version='1.0' encoding='iso-8859-1'%3F%3E%3Csvg version='1.1' id='Capa_1' xmlns='http://www.w3.org/2000/svg' xmlns:xlink='http://www.w3.org/1999/xlink' x='0px' y='0px' viewBox='0 0 368.553 368.553' style='enable-background:new 0 0 368.553 368.553;' xml:space='preserve'%3E%3Cg%3E%3Cg%3E%3Cpath d='M239.68,0H42.695v368.553h283.164V86.811L239.68,0z M244.057,25.7l56.288,56.701h-56.288V25.7z M57.695,353.553V15 h171.362v82.401h81.802v256.151H57.695V353.553z'/%3E%3Crect x='86.435' y='82.401' width='121.875' height='15'/%3E%3Crect x='86.435' y='151.122' width='195.685' height='15'/%3E%3Crect x='86.435' y='219.843' width='195.685' height='15'/%3E%3Crect x='86.435' y='288.563' width='195.685' height='15'/%3E%3C/g%3E%3C/g%3E%3C/svg%3E%0A\"); \x7d\n.folder-icon \x7b background-image: url(\"data:image/svg+xml,%3C%3Fxml version='1.0' encoding='iso-8859-1'%3F%3E%3C!-- Generator: Adobe Illustrator 19.0.0, SVG Export Plug-In . SVG Version: 6.00 Build 0) --%3E%3Csvg version='1.1' id='Layer_1' xmlns='http://www.w3.org/2000/svg' xmlns:xlink='http://www.w3.org/1999/xlink' x='0px' y='0px' viewBox='0 0 512 512' style='enable-background:new 0 0 512 512;' xml:space='preserve'%3E%3Cpath style='fill:%23FBC176;' d='M0,167.724v264.828c0,15.007,11.476,26.483,26.483,26.483h459.034 c15.007,0,26.483-11.476,26.483-26.483V167.724c0-15.007-11.476-26.483-26.483-26.483H26.483C11.476,141.241,0,153.6,0,167.724'/%3E%3Cpath style='fill:%23C39A6E;' d='M467.862,141.241c0-19.421-15.89-35.31-35.31-35.31H291.31l-44.138-52.966H52.966 c-15.007,0-26.483,12.359-26.483,26.483v61.793H467.862z'/%3E%3Cg%3E%3Cpath style='fill:%23FFFFFF;' d='M158.897,203.034H52.966c-5.297,0-8.828-3.531-8.828-8.828s3.531-8.828,8.828-8.828h105.931 c5.297,0,8.828,3.531,8.828,8.828S164.193,203.034,158.897,203.034'/%3E%3Cpath style='fill:%23FFFFFF;' d='M158.897,238.345H52.966c-5.297,0-8.828-3.531-8.828-8.828s3.531-8.828,8.828-8.828h105.931 c5.297,0,8.828,3.531,8.828,8.828S164.193,238.345,158.897,238.345'/%3E%3C/g%3E%3C/svg%3E%0A\"); \x7d\n\t\t</style>\n\t</head>\n\t<body>\n\t\t<h2>Listing of "

/-- Listing template text between the second `${relativePath}` hole and the
joined entry lines. -/
def listingPartC : String := "</h2>\n\t\t<ul style=\"list-style-type:none\">\n\t\t\t"

/-- Listing template text after the entry lines. -/
def listingPartD : String := "\n\t\t</ul>\n\t</body>\n</html>\n"

/-- One `<li>` line of the listing (the inner template literal at index.ts line
107), including its trailing newline: icon span, link to
`path.posix.join(relativePath, entry.name)` with `/` appended for directories,
and the entry name as text. -/
def entryLine (relativePath : String) (e : DirEntry) : String :=
  "<li> <span class=\"icon " ++ (if e.isDir then "folder-icon" else "file-icon")
    ++ "\"></span><a href=\"" ++ pathJoin relativePath e.name
    ++ (if e.isDir then "/" else "") ++ "\">" ++ e.name ++ "</a></li>\n"

/-- The rendered listing page: the template with the two `${relativePath}`
holes filled and the entry lines joined with the empty separator. -/
def listingHtml (relativePath : String) (entries : List DirEntry) : String :=
  listingPartA ++ relativePath ++ listingPartB ++ relativePath ++ listingPartC
    ++ String.join (entries.map (entryLine relativePath)) ++ listingPartD

/-- UTF-8 bytes of a string (`Buffer.from(contents)`). -/
def strBytes (s : String) : Bytes := s.toUTF8.toList.map (fun b => b.toNat)

/-- Bytes of the rendered listing of a directory (index.ts lines 77-113): the
root-relative path gets a leading separator (`path.sep + path.relative(rootDir,
dirPath)`; the backslash replacement is the identity on posix) and the entries
are sorted with the comparator before rendering. -/
def listingBytes (E : Env) (cfg : Config) (dirPath : String) (entries : List DirEntry) :
    Bytes :=
  strBytes (listingHtml ("/" ++ pathRelative cfg.rootDir dirPath) (entries.mergeSort (entLe E)))

/-- Directory writer `serveDir` (index.ts lines 76-114), parameterized by the
file writer it delegates to: renders the sorted listing and calls the file
writer with extension `.html` and the page's bytes. -/
def serveDirWith (sf : Env → Config → Request → Nat → String → Bytes → List Ev)
    (E : Env) (cfg : Config) (req : Request) (now : Nat)
    (dirPath : String) (entries : List DirEntry) : List Ev :=
  sf E cfg req now ".html" (listingBytes E cfg dirPath entries)

/-- The candidate path the decision engine resolves a request pathname to
(index.ts line 124). -/
def candidateOf (cfg : Config) (pathname : String) : String :=
  pathNormalize (pathJoin cfg.rootDir pathname)

/-- The index file path probed inside a directory (index.ts line 145). -/
def indexPathOf (candidate : String) : String :=
  pathNormalize (pathJoin candidate "index.html")

/-- Canonical directory request path (index.ts lines 138-141):
`path.relative(rootDir, requestedPath)` with backslashes replaced by `/`
(identity on posix) and a trailing `/` appended, then a leading `/` prepended
when the first character is not already `/` — which happens exactly when the
relative path is empty, i.e. when the candidate is the root directory itself,
where the result is `"/"` rather than `"//"`. -/
def expectedDirPath (rootDir candidate : String) : String :=
  let e0 := pathRelative rootDir candidate ++ "/"
  if e0.toList.head? = some '/' then e0 else "/" ++ e0

/-! ## Decision engine and facade (index.ts lines 116-165) -/

/-- Decision engine `doHandle` (index.ts lines 116-155), parameterized by the
file writer of the version; `serveDir` delegates to the same writer.  The
containment test `requestedPath.substr(0, rootDir.length) !== rootDir` is
exactly the literal string-prefix test (when `requestedPath` is shorter than
`rootDir`, `substr` returns all of it and the comparison fails unless the two
are equal), modelled on character lists. -/
def doHandleWith (sf : Env → Config → Request → Nat → String → Bytes → List Ev)
    (E : Env) (cfg : Config) (fs : FsState) (req : Request) (now : Nat) : List Ev :=
  if req.method ≠ "GET" ∨ req.url = "" then notFound "1"
  else
    match urlPathname req.url with
    | none => notFound "2"
    | some pathname =>
      let requestedPath := candidateOf cfg pathname
      if cfg.rootDir.toList.isPrefixOf requestedPath.toList = false then notFound "3"
      else
        Ev.probeRead requestedPath ::
          match fs.readFile requestedPath with
          | some content => sf E cfg req now (extname requestedPath) content
          | none =>
            Ev.probeStat requestedPath ::
              match fs.statIsDir requestedPath with
              | none => notFound "4"
              | some false => notFound "4"
              | some true =>
                let expected := expectedDirPath cfg.rootDir requestedPath
                if pathname ≠ expected then redirect expected
                else
                  let indexPath := indexPathOf requestedPath
                  Ev.probeRead indexPath ::
                    match fs.readFile indexPath with
                    | some indexContent => sf E cfg req now (extname indexPath) indexContent
                    | none =>
                      Ev.probeReadDir requestedPath ::
                        match fs.readDir requestedPath with
                        | some entries => serveDirWith sf E cfg req now requestedPath entries
                        | none => notFound "5"

/-- The handler of the TypeScript source `src/index.ts`. -/
def doHandleTs (E : Env) (cfg : Config) (fs : FsState) (req : Request) (now : Nat) : List Ev :=
  doHandleWith serveFileTs E cfg fs req now

/-- The handler of the compiled artifact `out/index.js`. -/
def doHandleJs (E : Env) (cfg : Config) (fs : FsState) (req : Request) (now : Nat) : List Ev :=
  doHandleWith serveFileJs E cfg fs req now

/-- Facade `handle` (index.ts lines 157-165): the trace of `doHandle` when its
promise fulfils (`some`), and the catch branch's fixed 500 response when it
rejects (`none`).  The embedded `doHandle` is a total function, so the
rejected case is the hypothetical last-resort branch, modelled explicitly. -/
def handleOutcome : Option (List Ev) → List Ev
  | some t => t
  | none => [Ev.resWriteHead 500 "Internal Server Error" [],
             Ev.resEnd (BodyV.str "Internal Server Error")]

/-! ## Trace observers -/

/-- Whether an event is a `res.writeHead` call. -/
def isWriteHead : Ev → Bool
  | Ev.resWriteHead _ _ _ => true
  | _ => false

/-- Whether an event is a `res.end` call. -/
def isEnd : Ev → Bool
  | Ev.resEnd _ => true
  | _ => false

/-- Whether an event is a filesystem probe. -/
def isProbe : Ev → Bool
  | Ev.probeRead _ => true
  | Ev.probeStat _ => true
  | Ev.probeReadDir _ => true
  | _ => false

/-- Headers of all `writeHead` calls in a trace, in order. -/
def headersOf : List Ev → List (String × String)
  | [] => []
  | Ev.resWriteHead _ _ hs :: t => hs ++ headersOf t
  | _ :: t => headersOf t

/-- Status line (code and text) of each `writeHead` call in a trace. -/
def statusesOf : List Ev → List (Nat × String)
  | [] => []
  | Ev.resWriteHead s st _ :: t => (s, st) :: statusesOf t
  | _ :: t => statusesOf t

/-- Bodies of all `end` calls in a trace. -/
def bodiesOf : List Ev → List BodyV
  | [] => []
  | Ev.resEnd b :: t => b :: bodiesOf t
  | _ :: t => bodiesOf t

/-- Selector for the value of an `ETag` header pair. -/
def etagSel (nv : String × String) : Option String :=
  if nv.1 = "ETag" then some nv.2 else none

/-- All `ETag` header values set in a trace. -/
def etagsOf (t : List Ev) : List String :=
  (headersOf t).filterMap etagSel

/-- Number of `res.writeHead` calls in a trace. -/
def countWriteHead : List Ev → Nat
  | [] => 0
  | e :: t => (if isWriteHead e then 1 else 0) + countWriteHead t

/-- Number of `res.end` calls in a trace. -/
def countEnd : List Ev → Nat
  | [] => 0
  | e :: t => (if isEnd e then 1 else 0) + countEnd t

/-- Containment of a path strictly inside (or at) the root, as the
specification's words for the claimed separator-boundary guard put it: the
candidate is the root itself or extends it past a path separator. -/
def insideRoot (rootDir candidate : String) : Prop :=
  candidate = rootDir ∨ (rootDir ++ "/").toList.isPrefixOf candidate.toList = true

/-! ## Concrete fixtures for counterexamples and witnesses -/

/-- Trivial external collaborators: constant digest, constant date rendering. -/
def envA : Env := ⟨fun _ => "", fun _ => "", fun _ _ => 0⟩

/-- External collaborators with an injective-on-length digest, used where an
`If-None-Match` match or mismatch matters. -/
def envB : Env := ⟨fun b => "h" ++ toString b.length, fun _ => "", fun _ _ => 0⟩

/-- Filesystem with nothing on it. -/
def fsEmpty : FsState := ⟨fun _ => none, fun _ => none, fun _ => none⟩

/-- Filesystem holding one regular file `/srv/wwwevil` (a sibling of the root
directory `/srv/www` whose name extends the root's) with byte content `[115]`. -/
def fsEvil : FsState :=
  ⟨fun p => if p = "/srv/wwwevil" then some [115] else none, fun _ => none, fun _ => none⟩

/-- Filesystem where `/srv/www` is a directory containing `index.html` with
byte content `[104]`. -/
def fsRootIndex : FsState :=
  ⟨fun p => if p = "/srv/www/index.html" then some [104] else none,
   fun p => if p = "/srv/www/" then some true else none,
   fun _ => none⟩

/-- Filesystem where `/r/sub` is a directory and nothing is readable. -/
def fsSub : FsState :=
  ⟨fun _ => none, fun p => if p = "/r/sub" then some true else none, fun _ => none⟩

/-- Filesystem holding one regular file `/r/a.txt` with byte content
`[104, 105]`. -/
def fsTxt : FsState :=
  ⟨fun p => if p = "/r/a.txt" then some [104, 105] else none, fun _ => none, fun _ => none⟩

/-! ## Theorems -/

/-- Helper: a GET request whose extracted pathname fails the containment check
is answered by `notFound "3"`, whichever file writer is plugged in. -/
theorem doHandleWith_guard_fail (sf : Env → Config → Request → Nat → String → Bytes → List Ev)
    (E : Env) (cfg : Config) (fs : FsState) (req : Request) (now : Nat) (pn : String)
    (hm : req.method = "GET") (hu : req.url ≠ "")
    (hp : urlPathname req.url = some pn)
    (hguard : cfg.rootDir.toList.isPrefixOf (candidateOf cfg pn).toList = false) :
    doHandleWith sf E cfg fs req now = notFound "3" := by
  unfold doHandleWith
  rw [if_neg (by simp [hm, hu])]
  simp only [hp, hguard, if_true]

/-- C1: a request whose normalized candidate `normalize(join(rootDir, pathname))`
does not have `rootDir` as a literal string prefix is answered 404 Not Found,
and the handler performs no filesystem probe at all on that request. -/
theorem C1_escape_blocked_without_probe (E : Env) (cfg : Config) (fs : FsState)
    (req : Request) (now : Nat) (pn : String)
    (hm : req.method = "GET") (hu : req.url ≠ "")
    (hp : urlPathname req.url = some pn)
    (hguard : cfg.rootDir.toList.isPrefixOf (candidateOf cfg pn).toList = false) :
    doHandleTs E cfg fs req now =
      [Ev.resWriteHead 404 "Not found" [], Ev.resEnd (BodyV.str "Not found - 3")] ∧
    ∀ e ∈ doHandleTs E cfg fs req now, isProbe e = false := by
  have key : doHandleTs E cfg fs req now = notFound "3" := by
    unfold doHandleTs
    exact doHandleWith_guard_fail serveFileTs E cfg fs req now pn hm hu hp hguard
  refine ⟨by simpa [notFound] using key, ?_⟩
  rw [key]
  intro e he
  simp [notFound] at he
  rcases he with h | h <;> simp [h, isProbe]

/-- C1 witness: the spec's own example, request `/../../etc/passwd` against
root `/srv/www` (candidate `/etc/passwd`), is answered 404 with no probe. -/
theorem C1_witness :
    doHandleTs envA ⟨"/srv/www", true, 5000⟩ fsEmpty ⟨"GET", "/../../etc/passwd", none⟩ 0 =
      [Ev.resWriteHead 404 "Not found" [], Ev.resEnd (BodyV.str "Not found - 3")] ∧
    ∀ e ∈ doHandleTs envA ⟨"/srv/www", true, 5000⟩ fsEmpty ⟨"GET", "/../../etc/passwd", none⟩ 0,
      isProbe e = false :=
  C1_escape_blocked_without_probe envA ⟨"/srv/www", true, 5000⟩ fsEmpty
    ⟨"GET", "/../../etc/passwd", none⟩ 0 "/../../etc/passwd"
    rfl (by decide) (by decide) (by decide)

/-- C2 counterexample: with root `/srv/www`, the request pathname `/../wwwevil`
yields candidate `/srv/wwwevil`, which passes the containment check although
it is neither the root nor inside it past a path separator — and the handler
resolves and serves the prefix-sibling file with 200, refuting the claim that
the guard also checks a separator boundary. -/
theorem C2_counterexample :
    ("/srv/www").toList.isPrefixOf (candidateOf ⟨"/srv/www", false, 0⟩ "/../wwwevil").toList
        = true ∧
    ¬ insideRoot "/srv/www" (candidateOf ⟨"/srv/www", false, 0⟩ "/../wwwevil") ∧
    doHandleTs envA ⟨"/srv/www", false, 0⟩ fsEvil ⟨"GET", "/../wwwevil", none⟩ 0 =
      [Ev.probeRead "/srv/wwwevil",
       Ev.resWriteHead 200 "OK" [("Content-Encoding", "utf8"), ("Content-Length", "1")],
       Ev.resEnd (BodyV.bytes [115])] := by
  refine ⟨by decide, ?_, by decide⟩
  unfold insideRoot
  decide

/-- C2 (amended): a pathname passing the containment check only guarantees that
`rootDir` is a literal string prefix of the candidate — the candidate is
`rootDir ++ rest` for some string `rest`, with no path-separator boundary
checked, so prefix-sibling escapes such as `/srv/wwwevil` under `/srv/www`
are possible. -/
theorem C2_prefix_only (cfg : Config) (pn : String)
    (hpass : cfg.rootDir.toList.isPrefixOf (candidateOf cfg pn).toList = true) :
    ∃ rest, candidateOf cfg pn = cfg.rootDir ++ rest := by
  rcases List.isPrefixOf_iff_prefix.mp hpass with ⟨t, ht⟩
  refine ⟨String.mk t, String.ext ?_⟩
  rw [String.data_append]
  exact ht.symm

/-- C2 witness: the prefix decomposition at the concrete escaping input. -/
theorem C2_prefix_only_witness :
    ∃ rest, candidateOf ⟨"/srv/www", false, 0⟩ "/../wwwevil" = "/srv/www" ++ rest :=
  C2_prefix_only ⟨"/srv/www", false, 0⟩ "/../wwwevil" (by decide)

/-- C3 counterexample: at the root directory itself the claimed canonical form
`"/" + relativePath(rootDir, candidate) + "/"` evaluates to `"//"`, so for the
request pathname `"/"` (which resolves to the existing directory
`/srv/www/`) the claim demands a 302 redirect to `"//"`; the code's expected
path is `"/"`, equal to the pathname, and the handler serves the directory's
`index.html` with 200 instead of redirecting. -/
theorem C3_counterexample :
    fsRootIndex.readFile (candidateOf ⟨"/srv/www", false, 0⟩ "/") = none ∧
    fsRootIndex.statIsDir (candidateOf ⟨"/srv/www", false, 0⟩ "/") = some true ∧
    "/" ++ pathRelative "/srv/www" (candidateOf ⟨"/srv/www", false, 0⟩ "/") ++ "/" = "//" ∧
    ("/" : String) ≠ "//" ∧
    doHandleTs envA ⟨"/srv/www", false, 0⟩ fsRootIndex ⟨"GET", "/", none⟩ 0 =
      [Ev.probeRead "/srv/www/", Ev.probeStat "/srv/www/",
       Ev.probeRead "/srv/www/index.html",
       Ev.resWriteHead 200 "OK"
         [("Content-Encoding", "utf8"), ("Content-Type", "text/html"),
          ("Content-Length", "1")],
       Ev.resEnd (BodyV.bytes [104])] := by
  decide

/-- C3 (amended): a request resolving to an existing directory whose pathname
differs from the code's expected canonical form — `relativePath(rootDir,
candidate) + "/"` with `"/"` prepended when not already leading (that is,
`"/" + rel + "/"` for a non-empty relative path and `"/"` for the root
itself) — is answered 302 Found with `Location` set to that expected path,
and the whole trace is the two probes and the redirect: no file, index.html
or listing is served. -/
theorem C3_redirect_canonical (E : Env) (cfg : Config) (fs : FsState) (req : Request)
    (now : Nat) (pn : String)
    (hm : req.method = "GET") (hu : req.url ≠ "")
    (hp : urlPathname req.url = some pn)
    (hguard : cfg.rootDir.toList.isPrefixOf (candidateOf cfg pn).toList = true)
    (hread : fs.readFile (candidateOf cfg pn) = none)
    (hstat : fs.statIsDir (candidateOf cfg pn) = some true)
    (hne : pn ≠ expectedDirPath cfg.rootDir (candidateOf cfg pn)) :
    doHandleTs E cfg fs req now =
      [Ev.probeRead (candidateOf cfg pn), Ev.probeStat (candidateOf cfg pn),
       Ev.resWriteHead 302 "Found"
         [("Location", expectedDirPath cfg.rootDir (candidateOf cfg pn))],
       Ev.resEnd (BodyV.str ("Location: " ++ expectedDirPath cfg.rootDir (candidateOf cfg pn)))] := by
  unfold doHandleTs doHandleWith
  rw [if_neg (by simp [hm, hu])]
  have hguard2 : cfg.rootDir.data.isPrefixOf (candidateOf cfg pn).data = true := hguard
  have hguard3 : cfg.rootDir.data <+: (candidateOf cfg pn).data :=
    List.isPrefixOf_iff_prefix.mp hguard2
  simp [hp, hguard, hguard2, hguard3, hread, hstat, hne, redirect]

/-- C3 witness: requesting the existing directory `/sub` (no trailing slash)
under root `/r` is answered 302 with `Location: /sub/` and nothing served. -/
theorem C3_redirect_canonical_witness :
    doHandleTs envA ⟨"/r", false, 0⟩ fsSub ⟨"GET", "/sub", none⟩ 0 =
      [Ev.probeRead "/r/sub", Ev.probeStat "/r/sub",
       Ev.resWriteHead 302 "Found" [("Location", "/sub/")],
       Ev.resEnd (BodyV.str "Location: /sub/")] := by
  have h := C3_redirect_canonical envA ⟨"/r", false, 0⟩ fsSub ⟨"GET", "/sub", none⟩ 0 "/sub"
    rfl (by decide) (by decide) (by decide) (by decide) (by decide) (by decide)
  rw [h]
  decide

/-- Helper: a request that passes the method, pathname and containment steps
and whose candidate is a readable file is answered by the file writer on the
candidate's extension and content, after the single read probe. -/
theorem doHandleWith_file (sf : Env → Config → Request → Nat → String → Bytes → List Ev)
    (E : Env) (cfg : Config) (fs : FsState) (req : Request) (now : Nat)
    (pn : String) (content : Bytes)
    (hm : req.method = "GET") (hu : req.url ≠ "")
    (hp : urlPathname req.url = some pn)
    (hguard : cfg.rootDir.toList.isPrefixOf (candidateOf cfg pn).toList = true)
    (hread : fs.readFile (candidateOf cfg pn) = some content) :
    doHandleWith sf E cfg fs req now =
      Ev.probeRead (candidateOf cfg pn) ::
        sf E cfg req now (extname (candidateOf cfg pn)) content := by
  unfold doHandleWith
  rw [if_neg (by simp [hm, hu])]
  have hguard2 : cfg.rootDir.data.isPrefixOf (candidateOf cfg pn).data = true := hguard
  have hguard3 : cfg.rootDir.data <+: (candidateOf cfg pn).data :=
    List.isPrefixOf_iff_prefix.mp hguard2
  simp [hp, hguard, hguard2, hguard3, hread]

/-- Helper: the `Content-Type` pair is in the accumulated file headers exactly
on a MIME-table hit. -/
theorem mem_fileHeadersBase (m : String → Option String) (h0 : List (String × String))
    (E : Env) (cfg : Config) (now : Nat) (en ct : String) (hct : m en = some ct) :
    ("Content-Type", ct) ∈ fileHeadersBase m h0 E cfg now en := by
  unfold fileHeadersBase
  rw [hct]
  by_cases h : cfg.expires = 0 <;> simp [h]

/-- C4: with the etag option enabled, a request resolving to a readable file is
answered 304 Not Modified with an empty body when its `If-None-Match` header
equals the hex digest of the file bytes, and otherwise 200 OK with the file
bytes as body; in both cases the digest is the `ETag` header value. -/
theorem C4_etag_conditional (E : Env) (cfg : Config) (fs : FsState) (req : Request)
    (now : Nat) (pn : String) (content : Bytes)
    (he : cfg.useETag = true)
    (hm : req.method = "GET") (hu : req.url ≠ "")
    (hp : urlPathname req.url = some pn)
    (hguard : cfg.rootDir.toList.isPrefixOf (candidateOf cfg pn).toList = true)
    (hread : fs.readFile (candidateOf cfg pn) = some content) :
    (req.ifNoneMatch = some (E.md5Hex content) →
      ∃ hs, doHandleTs E cfg fs req now =
          [Ev.probeRead (candidateOf cfg pn), Ev.resWriteHead 304 "Not modified" hs,
           Ev.resEnd BodyV.empty] ∧
        ("ETag", E.md5Hex content) ∈ hs) ∧
    (req.ifNoneMatch ≠ some (E.md5Hex content) →
      ∃ hs, doHandleTs E cfg fs req now =
          [Ev.probeRead (candidateOf cfg pn), Ev.resWriteHead 200 "OK" hs,
           Ev.resEnd (BodyV.bytes content)] ∧
        ("ETag", E.md5Hex content) ∈ hs) := by
  have base : doHandleTs E cfg fs req now =
      Ev.probeRead (candidateOf cfg pn) ::
        serveFileTs E cfg req now (extname (candidateOf cfg pn)) content := by
    unfold doHandleTs
    exact doHandleWith_file serveFileTs E cfg fs req now pn content hm hu hp hguard hread
  constructor
  · intro hmatch
    refine ⟨fileHeadersBase mimeTs [("Content-Encoding", "utf8")] E cfg now
        (extname (candidateOf cfg pn)) ++ [("ETag", E.md5Hex content)], ?_, by simp⟩
    rw [base]
    unfold serveFileTs serveFileCore
    simp [he, hmatch]
  · intro hnm
    refine ⟨fileHeadersBase mimeTs [("Content-Encoding", "utf8")] E cfg now
        (extname (candidateOf cfg pn)) ++ [("ETag", E.md5Hex content)] ++
        [("Content-Length", toString content.length)], ?_, by simp⟩
    rw [base]
    unfold serveFileTs serveFileCore
    simp [he, hnm]

/-- C4 witness: re-requesting `/r/a.txt` with `If-None-Match` equal to the
digest of its bytes is answered 304 with an empty body. -/
theorem C4_etag_conditional_witness :
    ∃ hs, doHandleTs envB ⟨"/r", true, 0⟩ fsTxt ⟨"GET", "/a.txt", some "h2"⟩ 0 =
        [Ev.probeRead "/r/a.txt", Ev.resWriteHead 304 "Not modified" hs,
         Ev.resEnd BodyV.empty] ∧
      ("ETag", "h2") ∈ hs := by
  have h := (C4_etag_conditional envB ⟨"/r", true, 0⟩ fsTxt ⟨"GET", "/a.txt", some "h2"⟩ 0
      "/a.txt" [104, 105] rfl rfl (by decide) (by decide) (by decide) (by decide)).1 (by decide)
  have e1 : candidateOf ⟨"/r", true, 0⟩ "/a.txt" = "/r/a.txt" := by decide
  have e2 : envB.md5Hex [104, 105] = "h2" := by decide
  rw [e1, e2] at h
  exact h

/-- C5 counterexample: the TypeScript source's file writer has no table entry
for `.txt` (nor `.json` nor `.png`): requesting the existing file `/a.txt`
through it yields 200 whose headers carry no `Content-Type` at all (and an
extra `Content-Encoding: utf8`), not `text/plain; charset=utf-8` as claimed. -/
theorem C5_counterexample :
    doHandleTs envA ⟨"/r", false, 0⟩ fsTxt ⟨"GET", "/a.txt", none⟩ 0 =
      [Ev.probeRead "/r/a.txt",
       Ev.resWriteHead 200 "OK" [("Content-Encoding", "utf8"), ("Content-Length", "2")],
       Ev.resEnd (BodyV.bytes [104, 105])] ∧
    ("Content-Type", "text/plain; charset=utf-8") ∉
      headersOf (doHandleTs envA ⟨"/r", false, 0⟩ fsTxt ⟨"GET", "/a.txt", none⟩ 0) ∧
    mimeTs ".txt" = none ∧ mimeTs ".json" = none ∧ mimeTs ".png" = none := by
  decide

/-- C5 (amended): the compiled artifact's file writer implements the full
table — html/htm/js/css/json/txt with `; charset=utf-8`, png/svg/ttf/wasm
bare, `.map` and unknown extensions with no `Content-Type` — and through it a
request resolving to a readable `.txt` file with no conditional header is
answered 200 with `Content-Type: text/plain; charset=utf-8`, the byte length
as `Content-Length`, and the file bytes as body.  (The TypeScript source's
table lacks json/png/txt and the charset parameters.) -/
theorem C5_mime_table_js (E : Env) (cfg : Config) (fs : FsState) (req : Request)
    (now : Nat) (pn : String) (content : Bytes)
    (hm : req.method = "GET") (hu : req.url ≠ "")
    (hp : urlPathname req.url = some pn)
    (hguard : cfg.rootDir.toList.isPrefixOf (candidateOf cfg pn).toList = true)
    (hread : fs.readFile (candidateOf cfg pn) = some content)
    (hext : extname (candidateOf cfg pn) = ".txt")
    (hinm : req.ifNoneMatch = none) :
    (∃ hs, doHandleJs E cfg fs req now =
        [Ev.probeRead (candidateOf cfg pn), Ev.resWriteHead 200 "OK" hs,
         Ev.resEnd (BodyV.bytes content)] ∧
      ("Content-Type", "text/plain; charset=utf-8") ∈ hs ∧
      ("Content-Length", toString content.length) ∈ hs) ∧
    mimeJs ".html" = some "text/html; charset=utf-8" ∧
    mimeJs ".htm" = some "text/html; charset=utf-8" ∧
    mimeJs ".js" = some "text/javascript; charset=utf-8" ∧
    mimeJs ".css" = some "text/css; charset=utf-8" ∧
    mimeJs ".json" = some "application/json; charset=utf-8" ∧
    mimeJs ".png" = some "image/png" ∧
    mimeJs ".svg" = some "image/svg+xml" ∧
    mimeJs ".ttf" = some "font/ttf" ∧
    mimeJs ".txt" = some "text/plain; charset=utf-8" ∧
    mimeJs ".wasm" = some "application/wasm" ∧
    mimeJs ".map" = none ∧ mimeJs ".xyz" = none := by
  have base : doHandleJs E cfg fs req now =
      Ev.probeRead (candidateOf cfg pn) ::
        serveFileJs E cfg req now (extname (candidateOf cfg pn)) content := by
    unfold doHandleJs
    exact doHandleWith_file serveFileJs E cfg fs req now pn content hm hu hp hguard hread
  refine ⟨?_, by decide, by decide, by decide, by decide, by decide, by decide, by decide,
    by decide, by decide, by decide, by decide, by decide⟩
  have hct : ("Content-Type", "text/plain; charset=utf-8") ∈
      fileHeadersBase mimeJs [] E cfg now (extname (candidateOf cfg pn)) := by
    refine mem_fileHeadersBase mimeJs [] E cfg now _ _ ?_
    rw [hext]
    decide
  cases hET : cfg.useETag with
  | false =>
    refine ⟨fileHeadersBase mimeJs [] E cfg now (extname (candidateOf cfg pn)) ++
        [("Content-Length", toString content.length)], ?_, by simp [hct], by simp⟩
    rw [base]
    unfold serveFileJs serveFileCore
    simp [hET]
  | true =>
    refine ⟨fileHeadersBase mimeJs [] E cfg now (extname (candidateOf cfg pn)) ++
        [("ETag", E.md5Hex content)] ++
        [("Content-Length", toString content.length)], ?_, by simp [hct], by simp⟩
    rw [base]
    unfold serveFileJs serveFileCore
    simp [hET, hinm]

/-- C5 witness: requesting `/a.txt` through the compiled handler. -/
theorem C5_mime_table_js_witness :
    ∃ hs, doHandleJs envA ⟨"/r", false, 0⟩ fsTxt ⟨"GET", "/a.txt", none⟩ 0 =
        [Ev.probeRead "/r/a.txt", Ev.resWriteHead 200 "OK" hs,
         Ev.resEnd (BodyV.bytes [104, 105])] ∧
      ("Content-Type", "text/plain; charset=utf-8") ∈ hs ∧
      ("Content-Length", "2") ∈ hs := by
  have h := (C5_mime_table_js envA ⟨"/r", false, 0⟩ fsTxt ⟨"GET", "/a.txt", none⟩ 0
      "/a.txt" [104, 105] rfl (by decide) (by decide) (by decide) (by decide) (by decide)
      rfl).1
  have e1 : candidateOf ⟨"/r", false, 0⟩ "/a.txt" = "/r/a.txt" := by decide
  have e2 : toString ([104, 105] : Bytes).length = "2" := by decide
  rw [e1, e2] at h
  exact h

/-- Helper: every branch of the file writer body performs exactly one
`writeHead` and one `end`. -/
theorem serveFileCore_once (m : String → Option String) (h0 : List (String × String))
    (E : Env) (cfg : Config) (req : Request) (now : Nat) (en : String) (c : Bytes) :
    countWriteHead (serveFileCore m h0 E cfg req now en c) = 1 ∧
    countEnd (serveFileCore m h0 E cfg req now en c) = 1 := by
  unfold serveFileCore
  by_cases hET : cfg.useETag = true <;>
    by_cases hnm : req.ifNoneMatch = some (E.md5Hex c) <;>
      simp [hET, hnm, countWriteHead, countEnd, isWriteHead, isEnd]

/-- Helper: a non-GET request or one with a falsy URL is answered `notFound "1"`. -/
theorem doHandleWith_bad (sf : Env → Config → Request → Nat → String → Bytes → List Ev)
    (E : Env) (cfg : Config) (fs : FsState) (req : Request) (now : Nat)
    (h : req.method ≠ "GET" ∨ req.url = "") :
    doHandleWith sf E cfg fs req now = notFound "1" := by
  unfold doHandleWith
  rw [if_pos h]

/-- Helper: a GET request whose URL yields no pathname is answered `notFound "2"`. -/
theorem doHandleWith_no_pathname (sf : Env → Config → Request → Nat → String → Bytes → List Ev)
    (E : Env) (cfg : Config) (fs : FsState) (req : Request) (now : Nat)
    (hm : req.method = "GET") (hu : req.url ≠ "") (hp : urlPathname req.url = none) :
    doHandleWith sf E cfg fs req now = notFound "2" := by
  unfold doHandleWith
  rw [if_neg (by simp [hm, hu])]
  simp [hp]

/-- Helper: a contained candidate that is neither a readable file nor a
directory is answered `notFound "4"` after the two probes. -/
theorem doHandleWith_dir_404 (sf : Env → Config → Request → Nat → String → Bytes → List Ev)
    (E : Env) (cfg : Config) (fs : FsState) (req : Request) (now : Nat) (pn : String)
    (hm : req.method = "GET") (hu : req.url ≠ "")
    (hp : urlPathname req.url = some pn)
    (hguard : cfg.rootDir.toList.isPrefixOf (candidateOf cfg pn).toList = true)
    (hread : fs.readFile (candidateOf cfg pn) = none)
    (hstat : fs.statIsDir (candidateOf cfg pn) = none ∨
      fs.statIsDir (candidateOf cfg pn) = some false) :
    doHandleWith sf E cfg fs req now =
      Ev.probeRead (candidateOf cfg pn) :: Ev.probeStat (candidateOf cfg pn) ::
        notFound "4" := by
  unfold doHandleWith
  rw [if_neg (by simp [hm, hu])]
  have hguard2 : cfg.rootDir.data.isPrefixOf (candidateOf cfg pn).data = true := hguard
  have hguard3 : cfg.rootDir.data <+: (candidateOf cfg pn).data :=
    List.isPrefixOf_iff_prefix.mp hguard2
  rcases hstat with hstat | hstat <;> simp [hp, hguard, hguard2, hguard3, hread, hstat]

/-- Helper: reduction of the decision engine to the directory stage, when the
contained candidate is not a readable file but stats as a directory. -/
theorem doHandleWith_dir (sf : Env → Config → Request → Nat → String → Bytes → List Ev)
    (E : Env) (cfg : Config) (fs : FsState) (req : Request) (now : Nat) (pn : String)
    (hm : req.method = "GET") (hu : req.url ≠ "")
    (hp : urlPathname req.url = some pn)
    (hguard : cfg.rootDir.toList.isPrefixOf (candidateOf cfg pn).toList = true)
    (hread : fs.readFile (candidateOf cfg pn) = none)
    (hstat : fs.statIsDir (candidateOf cfg pn) = some true) :
    doHandleWith sf E cfg fs req now =
      Ev.probeRead (candidateOf cfg pn) :: Ev.probeStat (candidateOf cfg pn) ::
        (if pn ≠ expectedDirPath cfg.rootDir (candidateOf cfg pn) then
          redirect (expectedDirPath cfg.rootDir (candidateOf cfg pn))
        else
          Ev.probeRead (indexPathOf (candidateOf cfg pn)) ::
            match fs.readFile (indexPathOf (candidateOf cfg pn)) with
            | some indexContent =>
              sf E cfg req now (extname (indexPathOf (candidateOf cfg pn))) indexContent
            | none =>
              Ev.probeReadDir (candidateOf cfg pn) ::
                match fs.readDir (candidateOf cfg pn) with
                | some entries => serveDirWith sf E cfg req now (candidateOf cfg pn) entries
                | none => notFound "5") := by
  unfold doHandleWith
  rw [if_neg (by simp [hm, hu])]
  have hguard2 : cfg.rootDir.data.isPrefixOf (candidateOf cfg pn).data = true := hguard
  have hguard3 : cfg.rootDir.data <+: (candidateOf cfg pn).data :=
    List.isPrefixOf_iff_prefix.mp hguard2
  simp [hp, hguard, hguard2, hguard3, hread, hstat]

/-- Helper: a directory candidate whose request pathname is not canonical is
answered by the redirect writer after the two probes. -/
theorem doHandleWith_redirect (sf : Env → Config → Request → Nat → String → Bytes → List Ev)
    (E : Env) (cfg : Config) (fs : FsState) (req : Request) (now : Nat) (pn : String)
    (hm : req.method = "GET") (hu : req.url ≠ "")
    (hp : urlPathname req.url = some pn)
    (hguard : cfg.rootDir.toList.isPrefixOf (candidateOf cfg pn).toList = true)
    (hread : fs.readFile (candidateOf cfg pn) = none)
    (hstat : fs.statIsDir (candidateOf cfg pn) = some true)
    (hne : pn ≠ expectedDirPath cfg.rootDir (candidateOf cfg pn)) :
    doHandleWith sf E cfg fs req now =
      Ev.probeRead (candidateOf cfg pn) :: Ev.probeStat (candidateOf cfg pn) ::
        redirect (expectedDirPath cfg.rootDir (candidateOf cfg pn)) := by
  rw [doHandleWith_dir sf E cfg fs req now pn hm hu hp hguard hread hstat, if_pos hne]

/-- Helper: a canonical directory request with a readable `index.html` is
answered by the file writer on the index path after the three probes. -/
theorem doHandleWith_index (sf : Env → Config → Request → Nat → String → Bytes → List Ev)
    (E : Env) (cfg : Config) (fs : FsState) (req : Request) (now : Nat) (pn : String)
    (indexContent : Bytes)
    (hm : req.method = "GET") (hu : req.url ≠ "")
    (hp : urlPathname req.url = some pn)
    (hguard : cfg.rootDir.toList.isPrefixOf (candidateOf cfg pn).toList = true)
    (hread : fs.readFile (candidateOf cfg pn) = none)
    (hstat : fs.statIsDir (candidateOf cfg pn) = some true)
    (heq : pn = expectedDirPath cfg.rootDir (candidateOf cfg pn))
    (hidx : fs.readFile (indexPathOf (candidateOf cfg pn)) = some indexContent) :
    doHandleWith sf E cfg fs req now =
      Ev.probeRead (candidateOf cfg pn) :: Ev.probeStat (candidateOf cfg pn) ::
        Ev.probeRead (indexPathOf (candidateOf cfg pn)) ::
          sf E cfg req now (extname (indexPathOf (candidateOf cfg pn))) indexContent := by
  rw [doHandleWith_dir sf E cfg fs req now pn hm hu hp hguard hread hstat,
    if_neg (fun hcontra => hcontra heq)]
  simp [hidx]

/-- Helper: a canonical directory request with no index but a readable
directory is answered by the listing delegation after the four probes. -/
theorem doHandleWith_listing (sf : Env → Config → Request → Nat → String → Bytes → List Ev)
    (E : Env) (cfg : Config) (fs : FsState) (req : Request) (now : Nat) (pn : String)
    (entries : List DirEntry)
    (hm : req.method = "GET") (hu : req.url ≠ "")
    (hp : urlPathname req.url = some pn)
    (hguard : cfg.rootDir.toList.isPrefixOf (candidateOf cfg pn).toList = true)
    (hread : fs.readFile (candidateOf cfg pn) = none)
    (hstat : fs.statIsDir (candidateOf cfg pn) = some true)
    (heq : pn = expectedDirPath cfg.rootDir (candidateOf cfg pn))
    (hidx : fs.readFile (indexPathOf (candidateOf cfg pn)) = none)
    (hdir : fs.readDir (candidateOf cfg pn) = some entries) :
    doHandleWith sf E cfg fs req now =
      Ev.probeRead (candidateOf cfg pn) :: Ev.probeStat (candidateOf cfg pn) ::
        Ev.probeRead (indexPathOf (candidateOf cfg pn)) ::
          Ev.probeReadDir (candidateOf cfg pn) ::
            sf E cfg req now ".html" (listingBytes E cfg (candidateOf cfg pn) entries) := by
  rw [doHandleWith_dir sf E cfg fs req now pn hm hu hp hguard hread hstat,
    if_neg (fun hcontra => hcontra heq)]
  simp [hidx, hdir, serveDirWith]

/-- Helper: a canonical directory request with no index and a failing directory
read is answered `notFound "5"` after the four probes. -/
theorem doHandleWith_nf5 (sf : Env → Config → Request → Nat → String → Bytes → List Ev)
    (E : Env) (cfg : Config) (fs : FsState) (req : Request) (now : Nat) (pn : String)
    (hm : req.method = "GET") (hu : req.url ≠ "")
    (hp : urlPathname req.url = some pn)
    (hguard : cfg.rootDir.toList.isPrefixOf (candidateOf cfg pn).toList = true)
    (hread : fs.readFile (candidateOf cfg pn) = none)
    (hstat : fs.statIsDir (candidateOf cfg pn) = some true)
    (heq : pn = expectedDirPath cfg.rootDir (candidateOf cfg pn))
    (hidx : fs.readFile (indexPathOf (candidateOf cfg pn)) = none)
    (hdir : fs.readDir (candidateOf cfg pn) = none) :
    doHandleWith sf E cfg fs req now =
      Ev.probeRead (candidateOf cfg pn) :: Ev.probeStat (candidateOf cfg pn) ::
        Ev.probeRead (indexPathOf (candidateOf cfg pn)) ::
          Ev.probeReadDir (candidateOf cfg pn) :: notFound "5" := by
  rw [doHandleWith_dir sf E cfg fs req now pn hm hu hp hguard hread hstat,
    if_neg (fun hcontra => hcontra heq)]
  simp [hidx, hdir]

/-- Helper: exhaustive case analysis of the decision engine's trace, each case
carrying the branch conditions that produced it. -/
theorem doHandleWith_elim (sf : Env → Config → Request → Nat → String → Bytes → List Ev)
    (E : Env) (cfg : Config) (fs : FsState) (req : Request) (now : Nat)
    (motive : List Ev → Prop)
    (hbad : req.method ≠ "GET" ∨ req.url = "" → motive (notFound "1"))
    (hnp : req.method = "GET" → req.url ≠ "" → urlPathname req.url = none →
      motive (notFound "2"))
    (hgf : ∀ pn, req.method = "GET" → req.url ≠ "" → urlPathname req.url = some pn →
      cfg.rootDir.toList.isPrefixOf (candidateOf cfg pn).toList = false →
      motive (notFound "3"))
    (hfile : ∀ pn content, req.method = "GET" → req.url ≠ "" →
      urlPathname req.url = some pn →
      cfg.rootDir.toList.isPrefixOf (candidateOf cfg pn).toList = true →
      fs.readFile (candidateOf cfg pn) = some content →
      motive (Ev.probeRead (candidateOf cfg pn) ::
        sf E cfg req now (extname (candidateOf cfg pn)) content))
    (hd404 : ∀ pn, req.method = "GET" → req.url ≠ "" → urlPathname req.url = some pn →
      cfg.rootDir.toList.isPrefixOf (candidateOf cfg pn).toList = true →
      fs.readFile (candidateOf cfg pn) = none →
      (fs.statIsDir (candidateOf cfg pn) = none ∨
        fs.statIsDir (candidateOf cfg pn) = some false) →
      motive (Ev.probeRead (candidateOf cfg pn) :: Ev.probeStat (candidateOf cfg pn) ::
        notFound "4"))
    (hredir : ∀ pn, req.method = "GET" → req.url ≠ "" → urlPathname req.url = some pn →
      cfg.rootDir.toList.isPrefixOf (candidateOf cfg pn).toList = true →
      fs.readFile (candidateOf cfg pn) = none →
      fs.statIsDir (candidateOf cfg pn) = some true →
      pn ≠ expectedDirPath cfg.rootDir (candidateOf cfg pn) →
      motive (Ev.probeRead (candidateOf cfg pn) :: Ev.probeStat (candidateOf cfg pn) ::
        redirect (expectedDirPath cfg.rootDir (candidateOf cfg pn))))
    (hindex : ∀ pn indexContent, req.method = "GET" → req.url ≠ "" →
      urlPathname req.url = some pn →
      cfg.rootDir.toList.isPrefixOf (candidateOf cfg pn).toList = true →
      fs.readFile (candidateOf cfg pn) = none →
      fs.statIsDir (candidateOf cfg pn) = some true →
      pn = expectedDirPath cfg.rootDir (candidateOf cfg pn) →
      fs.readFile (indexPathOf (candidateOf cfg pn)) = some indexContent →
      motive (Ev.probeRead (candidateOf cfg pn) :: Ev.probeStat (candidateOf cfg pn) ::
        Ev.probeRead (indexPathOf (candidateOf cfg pn)) ::
          sf E cfg req now (extname (indexPathOf (candidateOf cfg pn))) indexContent))
    (hlist : ∀ pn entries, req.method = "GET" → req.url ≠ "" →
      urlPathname req.url = some pn →
      cfg.rootDir.toList.isPrefixOf (candidateOf cfg pn).toList = true →
      fs.readFile (candidateOf cfg pn) = none →
      fs.statIsDir (candidateOf cfg pn) = some true →
      pn = expectedDirPath cfg.rootDir (candidateOf cfg pn) →
      fs.readFile (indexPathOf (candidateOf cfg pn)) = none →
      fs.readDir (candidateOf cfg pn) = some entries →
      motive (Ev.probeRead (candidateOf cfg pn) :: Ev.probeStat (candidateOf cfg pn) ::
        Ev.probeRead (indexPathOf (candidateOf cfg pn)) ::
          Ev.probeReadDir (candidateOf cfg pn) ::
            sf E cfg req now ".html" (listingBytes E cfg (candidateOf cfg pn) entries)))
    (hn5 : ∀ pn, req.method = "GET" → req.url ≠ "" → urlPathname req.url = some pn →
      cfg.rootDir.toList.isPrefixOf (candidateOf cfg pn).toList = true →
      fs.readFile (candidateOf cfg pn) = none →
      fs.statIsDir (candidateOf cfg pn) = some true →
      pn = expectedDirPath cfg.rootDir (candidateOf cfg pn) →
      fs.readFile (indexPathOf (candidateOf cfg pn)) = none →
      fs.readDir (candidateOf cfg pn) = none →
      motive (Ev.probeRead (candidateOf cfg pn) :: Ev.probeStat (candidateOf cfg pn) ::
        Ev.probeRead (indexPathOf (candidateOf cfg pn)) ::
          Ev.probeReadDir (candidateOf cfg pn) :: notFound "5")) :
    motive (doHandleWith sf E cfg fs req now) := by
  by_cases hM : req.method ≠ "GET" ∨ req.url = ""
  · rw [doHandleWith_bad sf E cfg fs req now hM]
    exact hbad hM
  · push_neg at hM
    obtain ⟨hm, hu⟩ := hM
    rcases hp : urlPathname req.url with _ | pn
    · rw [doHandleWith_no_pathname sf E cfg fs req now hm hu hp]
      exact hnp hm hu hp
    · cases hg : cfg.rootDir.toList.isPrefixOf (candidateOf cfg pn).toList with
      | false =>
        have key : doHandleWith sf E cfg fs req now = notFound "3" :=
          doHandleWith_guard_fail sf E cfg fs req now pn hm hu hp hg
        rw [key]
        exact hgf pn hm hu hp hg
      | true =>
        rcases hr : fs.readFile (candidateOf cfg pn) with _ | content
        · rcases hs : fs.statIsDir (candidateOf cfg pn) with _ | b
          · rw [doHandleWith_dir_404 sf E cfg fs req now pn hm hu hp hg hr (Or.inl hs)]
            exact hd404 pn hm hu hp hg hr (Or.inl hs)
          · cases b with
            | false =>
              rw [doHandleWith_dir_404 sf E cfg fs req now pn hm hu hp hg hr (Or.inr hs)]
              exact hd404 pn hm hu hp hg hr (Or.inr hs)
            | true =>
              by_cases he : pn = expectedDirPath cfg.rootDir (candidateOf cfg pn)
              · rcases hi : fs.readFile (indexPathOf (candidateOf cfg pn)) with _ | ic
                · rcases hd : fs.readDir (candidateOf cfg pn) with _ | entries
                  · rw [doHandleWith_nf5 sf E cfg fs req now pn hm hu hp hg hr hs he hi hd]
                    exact hn5 pn hm hu hp hg hr hs he hi hd
                  · rw [doHandleWith_listing sf E cfg fs req now pn entries
                      hm hu hp hg hr hs he hi hd]
                    exact hlist pn entries hm hu hp hg hr hs he hi hd
                · rw [doHandleWith_index sf E cfg fs req now pn ic hm hu hp hg hr hs he hi]
                  exact hindex pn ic hm hu hp hg hr hs he hi
              · rw [doHandleWith_redirect sf E cfg fs req now pn hm hu hp hg hr hs he]
                exact hredir pn hm hu hp hg hr hs he
        · rw [doHandleWith_file sf E cfg fs req now pn content hm hu hp hg hr]
          exact hfile pn content hm hu hp hg hr

/-- Helper: the decision engine performs exactly one `writeHead` and one `end`
whatever file writer is plugged in, as long as that writer does. -/
theorem doHandleWith_once (sf : Env → Config → Request → Nat → String → Bytes → List Ev)
    (hsf : ∀ E cfg req now en c,
      countWriteHead (sf E cfg req now en c) = 1 ∧ countEnd (sf E cfg req now en c) = 1)
    (E : Env) (cfg : Config) (fs : FsState) (req : Request) (now : Nat) :
    countWriteHead (doHandleWith sf E cfg fs req now) = 1 ∧
    countEnd (doHandleWith sf E cfg fs req now) = 1 := by
  refine doHandleWith_elim sf E cfg fs req now
    (fun t => countWriteHead t = 1 ∧ countEnd t = 1) ?_ ?_ ?_ ?_ ?_ ?_ ?_ ?_ ?_ <;>
    intros <;>
    simp [countWriteHead, countEnd, isWriteHead, isEnd, notFound, redirect, hsf]

/-- C7: on every control path of the handler — the two writers of the decision
engine's outcomes, the 304 early return and the 200 path of the file writer,
the directory-listing delegation, and the facade's 500 catch branch —
`writeHead` is invoked exactly once and `end` exactly once. -/
theorem C7_write_head_end_once (E : Env) (cfg : Config) (fs : FsState) (req : Request)
    (now : Nat) :
    countWriteHead (handleOutcome (some (doHandleTs E cfg fs req now))) = 1 ∧
    countEnd (handleOutcome (some (doHandleTs E cfg fs req now))) = 1 ∧
    countWriteHead (handleOutcome none) = 1 ∧
    countEnd (handleOutcome none) = 1 := by
  have h := doHandleWith_once serveFileTs
    (fun E cfg req now en c => serveFileCore_once mimeTs [("Content-Encoding", "utf8")]
      E cfg req now en c)
    E cfg fs req now
  exact ⟨h.1, h.2, by decide, by decide⟩

/-- Helper: a header accumulated by `fileHeadersBase` is an initial header, a
`Content-Type`, or an `Expires` set only when the expires option is truthy. -/
theorem fileHeadersBase_names (m : String → Option String) (h0 : List (String × String))
    (E : Env) (cfg : Config) (now : Nat) (en : String) (nv : String × String)
    (hnv : nv ∈ fileHeadersBase m h0 E cfg now en) :
    nv ∈ h0 ∨ nv.1 = "Content-Type" ∨ (nv.1 = "Expires" ∧ cfg.expires ≠ 0) := by
  unfold fileHeadersBase at hnv
  rcases hmime : m en with _ | ct <;> simp only [hmime] at hnv
  · by_cases he : cfg.expires = 0
    · rw [if_neg (by simp [he])] at hnv
      exact Or.inl hnv
    · rw [if_pos he] at hnv
      rcases List.mem_append.mp hnv with h | h
      · exact Or.inl h
      · rw [List.mem_singleton.mp h]
        exact Or.inr (Or.inr ⟨rfl, he⟩)
  · by_cases he : cfg.expires = 0
    · rw [if_neg (by simp [he])] at hnv
      rcases List.mem_append.mp hnv with h | h
      · exact Or.inl h
      · rw [List.mem_singleton.mp h]
        exact Or.inr (Or.inl rfl)
    · rw [if_pos he] at hnv
      rcases List.mem_append.mp hnv with h | h
      · rcases List.mem_append.mp h with h2 | h2
        · exact Or.inl h2
        · rw [List.mem_singleton.mp h2]
          exact Or.inr (Or.inl rfl)
      · rw [List.mem_singleton.mp h]
        exact Or.inr (Or.inr ⟨rfl, he⟩)

/-- Helper: the initial headers object is contained in the accumulated one. -/
theorem subset_fileHeadersBase (m : String → Option String) (h0 : List (String × String))
    (E : Env) (cfg : Config) (now : Nat) (en : String) :
    h0 ⊆ fileHeadersBase m h0 E cfg now en := by
  unfold fileHeadersBase
  rcases hmime : m en with _ | ct <;> simp only [hmime] <;> by_cases he : cfg.expires ≠ 0
  · rw [if_pos he]
    exact List.subset_append_left _ _
  · rw [if_neg he]
    exact fun _ ha => ha
  · rw [if_pos he]
    exact (List.subset_append_left _ _).trans (List.subset_append_left _ _)
  · rw [if_neg he]
    exact List.subset_append_left _ _

/-- Helper: a `Content-Type` header accumulated by `fileHeadersBase` is either
an initial header or carries exactly the table's value for the extension. -/
theorem fileHeadersBase_ct (m : String → Option String) (h0 : List (String × String))
    (E : Env) (cfg : Config) (now : Nat) (en : String) (v : String)
    (hv : ("Content-Type", v) ∈ fileHeadersBase m h0 E cfg now en) :
    ("Content-Type", v) ∈ h0 ∨ m en = some v := by
  unfold fileHeadersBase at hv
  rcases hmime : m en with _ | ct <;> simp only [hmime] at hv
  · by_cases he : cfg.expires ≠ 0
    · rw [if_pos he] at hv
      rcases List.mem_append.mp hv with h | h
      · exact Or.inl h
      · exact absurd (congrArg Prod.fst (List.mem_singleton.mp h)) (by simp)
    · rw [if_neg he] at hv
      exact Or.inl hv
  · by_cases he : cfg.expires ≠ 0
    · rw [if_pos he] at hv
      rcases List.mem_append.mp hv with h | h
      · rcases List.mem_append.mp h with h2 | h2
        · exact Or.inl h2
        · have h3 : v = ct := congrArg Prod.snd (List.mem_singleton.mp h2)
          exact Or.inr (by rw [h3])
      · exact absurd (congrArg Prod.fst (List.mem_singleton.mp h)) (by simp)
    · rw [if_neg he] at hv
      rcases List.mem_append.mp hv with h | h
      · exact Or.inl h
      · have h3 : v = ct := congrArg Prod.snd (List.mem_singleton.mp h)
        exact Or.inr (by rw [h3])

/-- Helper: every `writeHead` of the file writer body is a 200 or a 304, keeps
the initial headers, and otherwise adds only `Content-Type` (with the table's
value), `Expires` (only when the expires option is truthy), `ETag` (only when
the etag option is on) and `Content-Length` (only on the 200 response). -/
theorem serveFileCore_event_frame (m : String → Option String) (h0 : List (String × String))
    (E : Env) (cfg : Config) (req : Request) (now : Nat) (en : String) (c : Bytes)
    (s : Nat) (st : String) (hs : List (String × String))
    (h : Ev.resWriteHead s st hs ∈ serveFileCore m h0 E cfg req now en c) :
    (s = 200 ∨ s = 304) ∧ h0 ⊆ hs ∧
    (∀ nv ∈ hs, nv ∈ h0 ∨ nv.1 = "Content-Type" ∨ (nv.1 = "Expires" ∧ cfg.expires ≠ 0) ∨
      (nv.1 = "ETag" ∧ cfg.useETag = true) ∨ (nv.1 = "Content-Length" ∧ s = 200)) ∧
    (∀ v, ("Content-Type", v) ∈ hs → ("Content-Type", v) ∈ h0 ∨ m en = some v) := by
  have hsub := subset_fileHeadersBase m h0 E cfg now en
  unfold serveFileCore at h
  by_cases hET : cfg.useETag = true
  · rw [if_pos hET] at h
    by_cases hnm : req.ifNoneMatch = some (E.md5Hex c)
    · rw [if_pos hnm] at h
      rcases List.mem_cons.mp h with h2 | h2
      · injection h2 with hsEq hstEq hhsEq
        subst hsEq
        subst hhsEq
        refine ⟨Or.inr rfl, hsub.trans (List.subset_append_left _ _), ?_, ?_⟩
        · intro nv hnv
          rcases List.mem_append.mp hnv with h3 | h3
          · rcases fileHeadersBase_names m h0 E cfg now en nv h3 with h4 | h4 | h4
            · exact Or.inl h4
            · exact Or.inr (Or.inl h4)
            · exact Or.inr (Or.inr (Or.inl h4))
          · rw [List.mem_singleton.mp h3]
            exact Or.inr (Or.inr (Or.inr (Or.inl ⟨rfl, hET⟩)))
        · intro v hv
          rcases List.mem_append.mp hv with h3 | h3
          · exact fileHeadersBase_ct m h0 E cfg now en v h3
          · exact absurd (congrArg Prod.fst (List.mem_singleton.mp h3)) (by simp)
      · rcases List.mem_cons.mp h2 with h3 | h3
        · exact Ev.noConfusion h3
        · exact absurd h3 (List.not_mem_nil _)
    · rw [if_neg hnm] at h
      rcases List.mem_cons.mp h with h2 | h2
      · injection h2 with hsEq hstEq hhsEq
        subst hsEq
        subst hhsEq
        refine ⟨Or.inl rfl,
          (hsub.trans (List.subset_append_left _ _)).trans (List.subset_append_left _ _),
          ?_, ?_⟩
        · intro nv hnv
          rcases List.mem_append.mp hnv with h3 | h3
          · rcases List.mem_append.mp h3 with h4 | h4
            · rcases fileHeadersBase_names m h0 E cfg now en nv h4 with h5 | h5 | h5
              · exact Or.inl h5
              · exact Or.inr (Or.inl h5)
              · exact Or.inr (Or.inr (Or.inl h5))
            · rw [List.mem_singleton.mp h4]
              exact Or.inr (Or.inr (Or.inr (Or.inl ⟨rfl, hET⟩)))
          · rw [List.mem_singleton.mp h3]
            exact Or.inr (Or.inr (Or.inr (Or.inr ⟨rfl, rfl⟩)))
        · intro v hv
          rcases List.mem_append.mp hv with h3 | h3
          · rcases List.mem_append.mp h3 with h4 | h4
            · exact fileHeadersBase_ct m h0 E cfg now en v h4
            · exact absurd (congrArg Prod.fst (List.mem_singleton.mp h4)) (by simp)
          · exact absurd (congrArg Prod.fst (List.mem_singleton.mp h3)) (by simp)
      · rcases List.mem_cons.mp h2 with h3 | h3
        · exact Ev.noConfusion h3
        · exact absurd h3 (List.not_mem_nil _)
  · rw [if_neg hET] at h
    rcases List.mem_cons.mp h with h2 | h2
    · injection h2 with hsEq hstEq hhsEq
      subst hsEq
      subst hhsEq
      refine ⟨Or.inl rfl, hsub.trans (List.subset_append_left _ _), ?_, ?_⟩
      · intro nv hnv
        rcases List.mem_append.mp hnv with h3 | h3
        · rcases fileHeadersBase_names m h0 E cfg now en nv h3 with h4 | h4 | h4
          · exact Or.inl h4
          · exact Or.inr (Or.inl h4)
          · exact Or.inr (Or.inr (Or.inl h4))
        · rw [List.mem_singleton.mp h3]
          exact Or.inr (Or.inr (Or.inr (Or.inr ⟨rfl, rfl⟩)))
      · intro v hv
        rcases List.mem_append.mp hv with h3 | h3
        · exact fileHeadersBase_ct m h0 E cfg now en v h3
        · exact absurd (congrArg Prod.fst (List.mem_singleton.mp h3)) (by simp)
    · rcases List.mem_cons.mp h2 with h3 | h3
      · exact Ev.noConfusion h3
      · exact absurd h3 (List.not_mem_nil _)

/-- Helper: a `writeHead` event in a probe-prefixed trace is in the tail. -/
theorem mem_of_probe_cons {e : Ev} {t : List Ev} {s : Nat} {st : String}
    {hs : List (String × String)} (h : Ev.resWriteHead s st hs ∈ e :: t)
    (hp : isProbe e = true) : Ev.resWriteHead s st hs ∈ t := by
  rcases List.mem_cons.mp h with h2 | h2
  · rw [← h2] at hp
    simp [isProbe] at hp
  · exact h2

/-- Helper: every `writeHead` event of the decision engine's trace satisfies
any predicate on (status, status text, headers) that holds of the plugged-in
file writer's events, of the not-found writer's 404 with no headers, and of
the redirect writer's 302 with the single `Location` header. -/
theorem doHandleWith_event (sf : Env → Config → Request → Nat → String → Bytes → List Ev)
    (E : Env) (cfg : Config) (fs : FsState) (req : Request) (now : Nat)
    (P : Nat → String → List (String × String) → Prop)
    (hsf : ∀ en c s st hs, Ev.resWriteHead s st hs ∈ sf E cfg req now en c → P s st hs)
    (h404 : P 404 "Not found" [])
    (h302 : ∀ loc, P 302 "Found" [("Location", loc)])
    (s : Nat) (st : String) (hs : List (String × String))
    (h : Ev.resWriteHead s st hs ∈ doHandleWith sf E cfg fs req now) : P s st hs := by
  revert h
  refine doHandleWith_elim sf E cfg fs req now
    (fun t => Ev.resWriteHead s st hs ∈ t → P s st hs) ?_ ?_ ?_ ?_ ?_ ?_ ?_ ?_ ?_
  · intro _ h
    simp [notFound] at h
    obtain ⟨rfl, rfl, rfl⟩ := h
    exact h404
  · intro _ _ _ h
    simp [notFound] at h
    obtain ⟨rfl, rfl, rfl⟩ := h
    exact h404
  · intro pn _ _ _ _ h
    simp [notFound] at h
    obtain ⟨rfl, rfl, rfl⟩ := h
    exact h404
  · intro pn content _ _ _ _ _ h
    exact hsf _ _ _ _ _ (mem_of_probe_cons h rfl)
  · intro pn _ _ _ _ _ _ h
    replace h := mem_of_probe_cons (mem_of_probe_cons h rfl) rfl
    simp [notFound] at h
    obtain ⟨rfl, rfl, rfl⟩ := h
    exact h404
  · intro pn _ _ _ _ _ _ _ h
    replace h := mem_of_probe_cons (mem_of_probe_cons h rfl) rfl
    simp [redirect] at h
    obtain ⟨rfl, rfl, rfl⟩ := h
    exact h302 _
  · intro pn ic _ _ _ _ _ _ _ _ h
    exact hsf _ _ _ _ _
      (mem_of_probe_cons (mem_of_probe_cons (mem_of_probe_cons h rfl) rfl) rfl)
  · intro pn entries _ _ _ _ _ _ _ _ _ h
    exact hsf _ _ _ _ _ (mem_of_probe_cons (mem_of_probe_cons
      (mem_of_probe_cons (mem_of_probe_cons h rfl) rfl) rfl) rfl)
  · intro pn _ _ _ _ _ _ _ _ _ h
    replace h := mem_of_probe_cons (mem_of_probe_cons
      (mem_of_probe_cons (mem_of_probe_cons h rfl) rfl) rfl) rfl
    simp [notFound] at h
    obtain ⟨rfl, rfl, rfl⟩ := h
    exact h404

/-- C8 counterexample: the TypeScript source's file writer always sets a
`Content-Encoding: utf8` header on file responses, which is outside the
claimed set {Content-Type, Content-Length, Expires, ETag, Location}. -/
theorem C8_counterexample :
    ("Content-Encoding", "utf8") ∈
      headersOf (doHandleTs envA ⟨"/r", false, 0⟩ fsTxt ⟨"GET", "/a.txt", none⟩ 0) ∧
    "Content-Encoding" ∉
      (["Content-Type", "Content-Length", "Expires", "ETag", "Location"] : List String) := by
  decide

/-- C8 (amended): each `writeHead` of the compiled handler carries headers
only from the set Content-Type, Expires, ETag, Content-Length, Location, and
each only under its own condition — `Content-Type` only with a value the MIME
table yields for some extension, `Expires` only when the expires option is
truthy, `ETag` only when the etag option is on, `Content-Length` only on a
200 response, `Location` only on the 302 redirect; the TypeScript source's
handler satisfies the same frame extended with `Content-Encoding`, which it
sets to the constant `utf8` on every file-writer response (200 and 304) and
nowhere else. -/
theorem C8_header_frame (E : Env) (cfg : Config) (fs : FsState) (req : Request) (now : Nat) :
    (∀ s st hs, Ev.resWriteHead s st hs ∈ doHandleJs E cfg fs req now →
      (∀ nv ∈ hs, nv.1 = "Content-Type" ∨ nv.1 = "Expires" ∨ nv.1 = "ETag" ∨
        nv.1 = "Content-Length" ∨ nv.1 = "Location") ∧
      (∀ v, ("Content-Type", v) ∈ hs → ∃ en, mimeJs en = some v) ∧
      (∀ v, ("Expires", v) ∈ hs → cfg.expires ≠ 0) ∧
      (∀ v, ("ETag", v) ∈ hs → cfg.useETag = true) ∧
      (∀ v, ("Content-Length", v) ∈ hs → s = 200) ∧
      (∀ v, ("Location", v) ∈ hs → s = 302)) ∧
    (∀ s st hs, Ev.resWriteHead s st hs ∈ doHandleTs E cfg fs req now →
      (∀ nv ∈ hs, nv.1 = "Content-Encoding" ∨ nv.1 = "Content-Type" ∨
        nv.1 = "Expires" ∨ nv.1 = "ETag" ∨ nv.1 = "Content-Length" ∨
        nv.1 = "Location") ∧
      (∀ v, ("Content-Type", v) ∈ hs → ∃ en, mimeTs en = some v) ∧
      (∀ v, ("Expires", v) ∈ hs → cfg.expires ≠ 0) ∧
      (∀ v, ("ETag", v) ∈ hs → cfg.useETag = true) ∧
      (∀ v, ("Content-Length", v) ∈ hs → s = 200) ∧
      (∀ v, ("Location", v) ∈ hs → s = 302) ∧
      (∀ v, ("Content-Encoding", v) ∈ hs → v = "utf8" ∧ (s = 200 ∨ s = 304)) ∧
      ((s = 200 ∨ s = 304) → ("Content-Encoding", "utf8") ∈ hs)) := by
  constructor
  · intro s st hs h
    refine doHandleWith_event serveFileJs E cfg fs req now
      (fun s st hs =>
        (∀ nv ∈ hs, nv.1 = "Content-Type" ∨ nv.1 = "Expires" ∨ nv.1 = "ETag" ∨
          nv.1 = "Content-Length" ∨ nv.1 = "Location") ∧
        (∀ v, ("Content-Type", v) ∈ hs → ∃ en, mimeJs en = some v) ∧
        (∀ v, ("Expires", v) ∈ hs → cfg.expires ≠ 0) ∧
        (∀ v, ("ETag", v) ∈ hs → cfg.useETag = true) ∧
        (∀ v, ("Content-Length", v) ∈ hs → s = 200) ∧
        (∀ v, ("Location", v) ∈ hs → s = 302))
      ?_ ?_ ?_ s st hs h
    · intro en c s' st' hs' hmem
      obtain ⟨hstat, hsub, hframe, hct⟩ :=
        serveFileCore_event_frame mimeJs [] E cfg req now en c s' st' hs' hmem
      refine ⟨?_, ?_, ?_, ?_, ?_, ?_⟩
      · intro nv hnv
        rcases hframe nv hnv with h2 | h2 | ⟨h2, _⟩ | ⟨h2, _⟩ | ⟨h2, _⟩
        · exact absurd h2 (List.not_mem_nil nv)
        · exact Or.inl h2
        · exact Or.inr (Or.inl h2)
        · exact Or.inr (Or.inr (Or.inl h2))
        · exact Or.inr (Or.inr (Or.inr (Or.inl h2)))
      · intro v hv
        rcases hct v hv with h2 | h2
        · exact absurd h2 (List.not_mem_nil _)
        · exact ⟨en, h2⟩
      · intro v hv
        rcases hframe ("Expires", v) hv with h2 | h2 | ⟨_, h2⟩ | ⟨h2, _⟩ | ⟨h2, _⟩
        · exact absurd h2 (List.not_mem_nil _)
        · simp at h2
        · exact h2
        · simp at h2
        · simp at h2
      · intro v hv
        rcases hframe ("ETag", v) hv with h2 | h2 | ⟨h2, _⟩ | ⟨_, h2⟩ | ⟨h2, _⟩
        · exact absurd h2 (List.not_mem_nil _)
        · simp at h2
        · simp at h2
        · exact h2
        · simp at h2
      · intro v hv
        rcases hframe ("Content-Length", v) hv with h2 | h2 | ⟨h2, _⟩ | ⟨h2, _⟩ | ⟨_, h2⟩
        · exact absurd h2 (List.not_mem_nil _)
        · simp at h2
        · simp at h2
        · simp at h2
        · exact h2
      · intro v hv
        rcases hframe ("Location", v) hv with h2 | h2 | ⟨h2, _⟩ | ⟨h2, _⟩ | ⟨h2, _⟩
        · exact absurd h2 (List.not_mem_nil _)
        · simp at h2
        · simp at h2
        · simp at h2
        · simp at h2
    · exact ⟨fun nv hnv => absurd hnv (List.not_mem_nil nv),
        fun v hv => absurd hv (List.not_mem_nil _),
        fun v hv => absurd hv (List.not_mem_nil _),
        fun v hv => absurd hv (List.not_mem_nil _),
        fun v hv => absurd hv (List.not_mem_nil _),
        fun v hv => absurd hv (List.not_mem_nil _)⟩
    · intro loc
      refine ⟨?_, ?_, ?_, ?_, ?_, fun v hv => rfl⟩
      · intro nv hnv
        rw [List.mem_singleton.mp hnv]
        exact Or.inr (Or.inr (Or.inr (Or.inr rfl)))
      · intro v hv
        exact absurd (congrArg Prod.fst (List.mem_singleton.mp hv)) (by simp)
      · intro v hv
        exact absurd (congrArg Prod.fst (List.mem_singleton.mp hv)) (by simp)
      · intro v hv
        exact absurd (congrArg Prod.fst (List.mem_singleton.mp hv)) (by simp)
      · intro v hv
        exact absurd (congrArg Prod.fst (List.mem_singleton.mp hv)) (by simp)
  · intro s st hs h
    refine doHandleWith_event serveFileTs E cfg fs req now
      (fun s st hs =>
        (∀ nv ∈ hs, nv.1 = "Content-Encoding" ∨ nv.1 = "Content-Type" ∨
          nv.1 = "Expires" ∨ nv.1 = "ETag" ∨ nv.1 = "Content-Length" ∨
          nv.1 = "Location") ∧
        (∀ v, ("Content-Type", v) ∈ hs → ∃ en, mimeTs en = some v) ∧
        (∀ v, ("Expires", v) ∈ hs → cfg.expires ≠ 0) ∧
        (∀ v, ("ETag", v) ∈ hs → cfg.useETag = true) ∧
        (∀ v, ("Content-Length", v) ∈ hs → s = 200) ∧
        (∀ v, ("Location", v) ∈ hs → s = 302) ∧
        (∀ v, ("Content-Encoding", v) ∈ hs → v = "utf8" ∧ (s = 200 ∨ s = 304)) ∧
        ((s = 200 ∨ s = 304) → ("Content-Encoding", "utf8") ∈ hs))
      ?_ ?_ ?_ s st hs h
    · intro en c s' st' hs' hmem
      obtain ⟨hstat, hsub, hframe, hct⟩ :=
        serveFileCore_event_frame mimeTs [("Content-Encoding", "utf8")]
          E cfg req now en c s' st' hs' hmem
      refine ⟨?_, ?_, ?_, ?_, ?_, ?_, ?_, fun _ => hsub (List.mem_singleton.mpr rfl)⟩
      · intro nv hnv
        rcases hframe nv hnv with h2 | h2 | ⟨h2, _⟩ | ⟨h2, _⟩ | ⟨h2, _⟩
        · rw [List.mem_singleton.mp h2]
          exact Or.inl rfl
        · exact Or.inr (Or.inl h2)
        · exact Or.inr (Or.inr (Or.inl h2))
        · exact Or.inr (Or.inr (Or.inr (Or.inl h2)))
        · exact Or.inr (Or.inr (Or.inr (Or.inr (Or.inl h2))))
      · intro v hv
        rcases hct v hv with h2 | h2
        · exact absurd (congrArg Prod.fst (List.mem_singleton.mp h2)) (by simp)
        · exact ⟨en, h2⟩
      · intro v hv
        rcases hframe ("Expires", v) hv with h2 | h2 | ⟨_, h2⟩ | ⟨h2, _⟩ | ⟨h2, _⟩
        · exact absurd (congrArg Prod.fst (List.mem_singleton.mp h2)) (by simp)
        · simp at h2
        · exact h2
        · simp at h2
        · simp at h2
      · intro v hv
        rcases hframe ("ETag", v) hv with h2 | h2 | ⟨h2, _⟩ | ⟨_, h2⟩ | ⟨h2, _⟩
        · exact absurd (congrArg Prod.fst (List.mem_singleton.mp h2)) (by simp)
        · simp at h2
        · simp at h2
        · exact h2
        · simp at h2
      · intro v hv
        rcases hframe ("Content-Length", v) hv with h2 | h2 | ⟨h2, _⟩ | ⟨h2, _⟩ | ⟨_, h2⟩
        · exact absurd (congrArg Prod.fst (List.mem_singleton.mp h2)) (by simp)
        · simp at h2
        · simp at h2
        · simp at h2
        · exact h2
      · intro v hv
        rcases hframe ("Location", v) hv with h2 | h2 | ⟨h2, _⟩ | ⟨h2, _⟩ | ⟨h2, _⟩
        · exact absurd (congrArg Prod.fst (List.mem_singleton.mp h2)) (by simp)
        · simp at h2
        · simp at h2
        · simp at h2
        · simp at h2
      · intro v hv
        rcases hframe ("Content-Encoding", v) hv with h2 | h2 | ⟨h2, _⟩ | ⟨h2, _⟩ | ⟨h2, _⟩
        · exact ⟨congrArg Prod.snd (List.mem_singleton.mp h2), hstat⟩
        · simp at h2
        · simp at h2
        · simp at h2
        · simp at h2
    · refine ⟨fun nv hnv => absurd hnv (List.not_mem_nil nv),
        fun v hv => absurd hv (List.not_mem_nil _),
        fun v hv => absurd hv (List.not_mem_nil _),
        fun v hv => absurd hv (List.not_mem_nil _),
        fun v hv => absurd hv (List.not_mem_nil _),
        fun v hv => absurd hv (List.not_mem_nil _),
        fun v hv => absurd hv (List.not_mem_nil _),
        fun hcontra => absurd hcontra (by decide)⟩
    · intro loc
      refine ⟨?_, ?_, ?_, ?_, ?_, fun v hv => rfl, ?_,
        fun hcontra => absurd hcontra (by decide)⟩
      · intro nv hnv
        rw [List.mem_singleton.mp hnv]
        exact Or.inr (Or.inr (Or.inr (Or.inr (Or.inr rfl))))
      · intro v hv
        exact absurd (congrArg Prod.fst (List.mem_singleton.mp hv)) (by simp)
      · intro v hv
        exact absurd (congrArg Prod.fst (List.mem_singleton.mp hv)) (by simp)
      · intro v hv
        exact absurd (congrArg Prod.fst (List.mem_singleton.mp hv)) (by simp)
      · intro v hv
        exact absurd (congrArg Prod.fst (List.mem_singleton.mp hv)) (by simp)
      · intro v hv
        exact absurd (congrArg Prod.fst (List.mem_singleton.mp hv)) (by simp)

/-- C8 witness: the frame applied at the compiled handler's concrete 200
response for a served `.txt` file: its `Content-Type` value is one the MIME
table yields, and its `Content-Length` header sits on a 200 response. -/
theorem C8_header_frame_witness :
    (∃ en, mimeJs en = some "text/plain; charset=utf-8") ∧ (200 : Nat) = 200 := by
  have h := (C8_header_frame envA ⟨"/r", false, 0⟩ fsTxt ⟨"GET", "/a.txt", none⟩ 0).1
    200 "OK" [("Content-Type", "text/plain; charset=utf-8"), ("Content-Length", "2")]
    (by decide)
  exact ⟨h.2.1 "text/plain; charset=utf-8" (by decide), h.2.2.2.2.1 "2" (by decide)⟩

/-- Helper: the `ETag`-valued headers accumulated by `fileHeadersBase` are
those of the initial headers object. -/
theorem fileHeadersBase_etag_filter (m : String → Option String) (h0 : List (String × String))
    (E : Env) (cfg : Config) (now : Nat) (en : String) :
    (fileHeadersBase m h0 E cfg now en).filterMap etagSel = h0.filterMap etagSel := by
  unfold fileHeadersBase
  have hct : ∀ ct, etagSel ("Content-Type", ct) = none := fun _ => rfl
  have hex : ∀ v, etagSel ("Expires", v) = none := fun _ => rfl
  rcases hm : m en with _ | ct <;> by_cases he : cfg.expires = 0 <;>
    simp [he, List.filterMap_append, hct, hex]

/-- Helper: closed form of the file writer body's response bodies. -/
theorem serveFileCore_bodies (m : String → Option String) (h0 : List (String × String))
    (E : Env) (cfg : Config) (req : Request) (now : Nat) (en : String) (c : Bytes) :
    bodiesOf (serveFileCore m h0 E cfg req now en c) =
      if cfg.useETag = true ∧ req.ifNoneMatch = some (E.md5Hex c) then [BodyV.empty]
      else [BodyV.bytes c] := by
  unfold serveFileCore
  by_cases hET : cfg.useETag = true <;>
    by_cases hnm : req.ifNoneMatch = some (E.md5Hex c) <;>
      simp [hET, hnm, bodiesOf]

/-- Helper: closed form of the file writer body's status lines. -/
theorem serveFileCore_statuses (m : String → Option String) (h0 : List (String × String))
    (E : Env) (cfg : Config) (req : Request) (now : Nat) (en : String) (c : Bytes) :
    statusesOf (serveFileCore m h0 E cfg req now en c) =
      if cfg.useETag = true ∧ req.ifNoneMatch = some (E.md5Hex c) then
        [(304, "Not modified")]
      else [(200, "OK")] := by
  unfold serveFileCore
  by_cases hET : cfg.useETag = true <;>
    by_cases hnm : req.ifNoneMatch = some (E.md5Hex c) <;>
      simp [hET, hnm, statusesOf]

/-- Helper: closed form of the file writer body's `ETag` header values, for an
initial headers object holding no `ETag`. -/
theorem serveFileCore_etags (m : String → Option String) (h0 : List (String × String))
    (E : Env) (cfg : Config) (req : Request) (now : Nat) (en : String) (c : Bytes)
    (hh : h0.filterMap etagSel = []) :
    (headersOf (serveFileCore m h0 E cfg req now en c)).filterMap etagSel =
      if cfg.useETag = true then [E.md5Hex c] else [] := by
  unfold serveFileCore
  have het : ∀ v, etagSel ("ETag", v) = some v := fun _ => rfl
  have hcl : ∀ v, etagSel ("Content-Length", v) = none := fun _ => rfl
  by_cases hET : cfg.useETag = true <;>
    by_cases hnm : req.ifNoneMatch = some (E.md5Hex c) <;>
      simp [hET, hnm, headersOf, List.filterMap_append, fileHeadersBase_etag_filter,
        hh, het, hcl]

/-- Helper: closed form of the TypeScript file writer's status lines. -/
theorem serveFileTs_statuses (E : Env) (cfg : Config) (req : Request) (now : Nat)
    (en : String) (c : Bytes) :
    statusesOf (serveFileTs E cfg req now en c) =
      if cfg.useETag = true ∧ req.ifNoneMatch = some (E.md5Hex c) then
        [(304, "Not modified")]
      else [(200, "OK")] :=
  serveFileCore_statuses mimeTs [("Content-Encoding", "utf8")] E cfg req now en c

/-- Helper: closed form of the compiled file writer's status lines. -/
theorem serveFileJs_statuses (E : Env) (cfg : Config) (req : Request) (now : Nat)
    (en : String) (c : Bytes) :
    statusesOf (serveFileJs E cfg req now en c) =
      if cfg.useETag = true ∧ req.ifNoneMatch = some (E.md5Hex c) then
        [(304, "Not modified")]
      else [(200, "OK")] :=
  serveFileCore_statuses mimeJs [] E cfg req now en c

/-- Helper: closed form of the TypeScript file writer's bodies. -/
theorem serveFileTs_bodies (E : Env) (cfg : Config) (req : Request) (now : Nat)
    (en : String) (c : Bytes) :
    bodiesOf (serveFileTs E cfg req now en c) =
      if cfg.useETag = true ∧ req.ifNoneMatch = some (E.md5Hex c) then [BodyV.empty]
      else [BodyV.bytes c] :=
  serveFileCore_bodies mimeTs [("Content-Encoding", "utf8")] E cfg req now en c

/-- Helper: closed form of the compiled file writer's bodies. -/
theorem serveFileJs_bodies (E : Env) (cfg : Config) (req : Request) (now : Nat)
    (en : String) (c : Bytes) :
    bodiesOf (serveFileJs E cfg req now en c) =
      if cfg.useETag = true ∧ req.ifNoneMatch = some (E.md5Hex c) then [BodyV.empty]
      else [BodyV.bytes c] :=
  serveFileCore_bodies mimeJs [] E cfg req now en c

/-- Helper: closed form of the TypeScript file writer's `ETag` values. -/
theorem serveFileTs_etags (E : Env) (cfg : Config) (req : Request) (now : Nat)
    (en : String) (c : Bytes) :
    (headersOf (serveFileTs E cfg req now en c)).filterMap etagSel =
      if cfg.useETag = true then [E.md5Hex c] else [] :=
  serveFileCore_etags mimeTs [("Content-Encoding", "utf8")] E cfg req now en c (by decide)

/-- Helper: closed form of the compiled file writer's `ETag` values. -/
theorem serveFileJs_etags (E : Env) (cfg : Config) (req : Request) (now : Nat)
    (en : String) (c : Bytes) :
    (headersOf (serveFileJs E cfg req now en c)).filterMap etagSel =
      if cfg.useETag = true then [E.md5Hex c] else [] :=
  serveFileCore_etags mimeJs [] E cfg req now en c (by decide)

/-- C9: the handler is deterministic in body and entity tag — two runs with the
same digest function, configuration, filesystem state, and request, at any
two clock instants, produce identical response bodies and identical `ETag`
header values (the time-dependent `Expires` header aside). -/
theorem C9_deterministic_body_etag (E : Env) (cfg : Config) (fs : FsState) (req : Request)
    (now₁ now₂ : Nat) :
    bodiesOf (doHandleTs E cfg fs req now₁) = bodiesOf (doHandleTs E cfg fs req now₂) ∧
    etagsOf (doHandleTs E cfg fs req now₁) = etagsOf (doHandleTs E cfg fs req now₂) := by
  unfold doHandleTs
  refine doHandleWith_elim serveFileTs E cfg fs req now₁
    (fun t => bodiesOf t = bodiesOf (doHandleWith serveFileTs E cfg fs req now₂) ∧
      etagsOf t = etagsOf (doHandleWith serveFileTs E cfg fs req now₂)) ?_ ?_ ?_ ?_ ?_ ?_ ?_ ?_ ?_
  · intro hb
    rw [doHandleWith_bad serveFileTs E cfg fs req now₂ hb]
    exact ⟨rfl, rfl⟩
  · intro hm hu hp
    rw [doHandleWith_no_pathname serveFileTs E cfg fs req now₂ hm hu hp]
    exact ⟨rfl, rfl⟩
  · intro pn hm hu hp hg
    rw [doHandleWith_guard_fail serveFileTs E cfg fs req now₂ pn hm hu hp hg]
    exact ⟨rfl, rfl⟩
  · intro pn content hm hu hp hg hr
    rw [doHandleWith_file serveFileTs E cfg fs req now₂ pn content hm hu hp hg hr]
    constructor
    · simp [bodiesOf, serveFileTs_bodies]
    · simp [etagsOf, headersOf, serveFileTs_etags]
  · intro pn hm hu hp hg hr hs
    rw [doHandleWith_dir_404 serveFileTs E cfg fs req now₂ pn hm hu hp hg hr hs]
    exact ⟨rfl, rfl⟩
  · intro pn hm hu hp hg hr hs hne
    rw [doHandleWith_redirect serveFileTs E cfg fs req now₂ pn hm hu hp hg hr hs hne]
    exact ⟨rfl, rfl⟩
  · intro pn ic hm hu hp hg hr hs he hi
    rw [doHandleWith_index serveFileTs E cfg fs req now₂ pn ic hm hu hp hg hr hs he hi]
    constructor
    · simp [bodiesOf, serveFileTs_bodies]
    · simp [etagsOf, headersOf, serveFileTs_etags]
  · intro pn entries hm hu hp hg hr hs he hi hd
    rw [doHandleWith_listing serveFileTs E cfg fs req now₂ pn entries hm hu hp hg hr hs he hi hd]
    constructor
    · simp [bodiesOf, serveFileTs_bodies]
    · simp [etagsOf, headersOf, serveFileTs_etags]
  · intro pn hm hu hp hg hr hs he hi hd
    rw [doHandleWith_nf5 serveFileTs E cfg fs req now₂ pn hm hu hp hg hr hs he hi hd]
    exact ⟨rfl, rfl⟩

/-- C10 counterexample: the TypeScript source and the compiled artifact do NOT
produce identical headers on every input — serving `/a.txt`, the source
yields a 200 whose headers are `Content-Encoding: utf8` and `Content-Length`
with no `Content-Type`, while the artifact yields `Content-Type: text/plain;
charset=utf-8` and `Content-Length`. -/
theorem C10_counterexample :
    doHandleTs envA ⟨"/r", false, 0⟩ fsTxt ⟨"GET", "/a.txt", none⟩ 0 ≠
      doHandleJs envA ⟨"/r", false, 0⟩ fsTxt ⟨"GET", "/a.txt", none⟩ 0 ∧
    headersOf (doHandleTs envA ⟨"/r", false, 0⟩ fsTxt ⟨"GET", "/a.txt", none⟩ 0) =
      [("Content-Encoding", "utf8"), ("Content-Length", "2")] ∧
    headersOf (doHandleJs envA ⟨"/r", false, 0⟩ fsTxt ⟨"GET", "/a.txt", none⟩ 0) =
      [("Content-Type", "text/plain; charset=utf-8"), ("Content-Length", "2")] := by
  decide

/-- C10 (amended): the two implementations agree on control flow and on
everything except file-response headers — for every digest function,
configuration, filesystem state, request and clock instant they produce the
same status lines, byte-identical bodies, and identical `ETag` values; they
differ only in the file writer's header table (`Content-Type` coverage and
charset parameters) and the source's extra `Content-Encoding` header. -/
theorem C10_status_body_etag_agree (E : Env) (cfg : Config) (fs : FsState) (req : Request)
    (now : Nat) :
    statusesOf (doHandleTs E cfg fs req now) = statusesOf (doHandleJs E cfg fs req now) ∧
    bodiesOf (doHandleTs E cfg fs req now) = bodiesOf (doHandleJs E cfg fs req now) ∧
    etagsOf (doHandleTs E cfg fs req now) = etagsOf (doHandleJs E cfg fs req now) := by
  unfold doHandleTs doHandleJs
  refine doHandleWith_elim serveFileTs E cfg fs req now
    (fun t => statusesOf t = statusesOf (doHandleWith serveFileJs E cfg fs req now) ∧
      bodiesOf t = bodiesOf (doHandleWith serveFileJs E cfg fs req now) ∧
      etagsOf t = etagsOf (doHandleWith serveFileJs E cfg fs req now)) ?_ ?_ ?_ ?_ ?_ ?_ ?_ ?_ ?_
  · intro hb
    rw [doHandleWith_bad serveFileJs E cfg fs req now hb]
    exact ⟨rfl, rfl, rfl⟩
  · intro hm hu hp
    rw [doHandleWith_no_pathname serveFileJs E cfg fs req now hm hu hp]
    exact ⟨rfl, rfl, rfl⟩
  · intro pn hm hu hp hg
    rw [doHandleWith_guard_fail serveFileJs E cfg fs req now pn hm hu hp hg]
    exact ⟨rfl, rfl, rfl⟩
  · intro pn content hm hu hp hg hr
    rw [doHandleWith_file serveFileJs E cfg fs req now pn content hm hu hp hg hr]
    refine ⟨?_, ?_, ?_⟩
    · simp [statusesOf, serveFileTs_statuses, serveFileJs_statuses]
    · simp [bodiesOf, serveFileTs_bodies, serveFileJs_bodies]
    · simp [etagsOf, headersOf, serveFileTs_etags, serveFileJs_etags]
  · intro pn hm hu hp hg hr hs
    rw [doHandleWith_dir_404 serveFileJs E cfg fs req now pn hm hu hp hg hr hs]
    exact ⟨rfl, rfl, rfl⟩
  · intro pn hm hu hp hg hr hs hne
    rw [doHandleWith_redirect serveFileJs E cfg fs req now pn hm hu hp hg hr hs hne]
    exact ⟨rfl, rfl, rfl⟩
  · intro pn ic hm hu hp hg hr hs he hi
    rw [doHandleWith_index serveFileJs E cfg fs req now pn ic hm hu hp hg hr hs he hi]
    refine ⟨?_, ?_, ?_⟩
    · simp [statusesOf, serveFileTs_statuses, serveFileJs_statuses]
    · simp [bodiesOf, serveFileTs_bodies, serveFileJs_bodies]
    · simp [etagsOf, headersOf, serveFileTs_etags, serveFileJs_etags]
  · intro pn entries hm hu hp hg hr hs he hi hd
    rw [doHandleWith_listing serveFileJs E cfg fs req now pn entries hm hu hp hg hr hs he hi hd]
    refine ⟨?_, ?_, ?_⟩
    · simp [statusesOf, serveFileTs_statuses, serveFileJs_statuses]
    · simp [bodiesOf, serveFileTs_bodies, serveFileJs_bodies]
    · simp [etagsOf, headersOf, serveFileTs_etags, serveFileJs_etags]
  · intro pn hm hu hp hg hr hs he hi hd
    rw [doHandleWith_nf5 serveFileJs E cfg fs req now pn hm hu hp hg hr hs he hi hd]
    exact ⟨rfl, rfl, rfl⟩

end YaServer
